import Mathlib

/-!
Verification of the dynamic-topology sculpting engine of this Blender tree
(`source/blender/editors/sculpt_paint/sculpt_dyntopo.c`) against its
natural-language specification.

Floating-point scalars are embedded as exact rationals.  Operations with no
exact rational counterpart (the float square root inside vector length, the
safe arc-cosine, the float constant pi) are passed in as explicit function
parameters, bundled in `FloatOps`; every theorem below is stated for all
instantiations of those parameters, and concrete witnesses instantiate them
with exact values that agree with the real functions on the (planar, axis
aligned) geometry they are evaluated at.
-/

/-- A 3-vector of exact scalars, embedding `float[3]`. -/
structure Vec3 where
  x : ℚ
  y : ℚ
  z : ℚ
deriving DecidableEq, Repr

/-- The zero vector (used as the out-of-bounds default for array reads that
the source code never performs). -/
def v3zero : Vec3 := ⟨0, 0, 0⟩

/-- Vector subtraction, embedding `sub_v3_v3v3`. -/
def subV (a b : Vec3) : Vec3 := ⟨a.x - b.x, a.y - b.y, a.z - b.z⟩

/-- Dot product, embedding `dot_v3v3`. -/
def dotV (a b : Vec3) : ℚ := a.x * b.x + a.y * b.y + a.z * b.z

/-- Cross product, embedding `cross_v3_v3v3`. -/
def crossV (a b : Vec3) : Vec3 :=
  ⟨a.y * b.z - a.z * b.y, a.z * b.x - a.x * b.z, a.x * b.y - a.y * b.x⟩

/-- The machine epsilon of single-precision floats, `FLT_EPSILON` = 2^-23. -/
def fltEpsilon : ℚ := 1 / 2 ^ 23

/-- Modelled from the spec: the BLI math helper `cotangent_tri_weight_v3`
(an out-of-scope collaborator; per the glossary it returns the cotangent of
the angle at `v1` between `v2` and `v3`, computed as dot over cross length,
returning 0 for degenerate wedges).  `len3` abstracts the float vector
length (the square root has no rational counterpart). -/
def cotangent_tri_weight_v3 (len3 : Vec3 → ℚ) (v1 v2 v3 : Vec3) : ℚ :=
  let a := subV v2 v1
  let b := subV v3 v1
  let c := crossV a b
  let c_len := len3 c
  if fltEpsilon < c_len then dotV a b / c_len else 0

/-- Modelled from the spec: the BLI math helper `area_tri_v3` (half the
length of the cross product of two edge vectors). -/
def area_tri_v3 (len3 : Vec3 → ℚ) (p q r : Vec3) : ℚ :=
  len3 (crossV (subV q p) (subV r p)) / 2

/-- Modelled from the spec: the obtuse-angle test used by
`tri_voronoi_area` through `angle_tri_v3`.  The source computes the interior
angle of the triangle at `a` and compares it with pi/2; in exact arithmetic
that angle exceeds pi/2 exactly when the dot product of the two edge
vectors leaving `a` is negative. -/
def angleGtHalfPi (a b c : Vec3) : Bool := dotV (subV b a) (subV c a) < 0

/-- Embeds `tri_voronoi_area` (sculpt_dyntopo.c:102): the mixed Voronoi
area of the wedge of triangle `(p, q, r)` at `p`, with the obtuse-triangle
special cases. -/
def tri_voronoi_area (len3 : Vec3 → ℚ) (p q r : Vec3) : ℚ :=
  let pr := subV p r
  let pq := subV p q
  if angleGtHalfPi p q r then
    area_tri_v3 len3 p q r / 2
  else if angleGtHalfPi q p r || angleGtHalfPi r p q then
    area_tri_v3 len3 p q r / 4
  else
    let dpr := dotV pr pr
    let dpq := dotV pq pq
    (1 / 8) * (dpr * cotangent_tri_weight_v3 len3 q p r +
               dpq * cotangent_tri_weight_v3 len3 r q p)

/-- Stated from the spec's words: the naive (full) triangle area. -/
def specNaiveArea (len3 : Vec3 → ℚ) (p q r : Vec3) : ℚ :=
  area_tri_v3 len3 p q r

/-- Stated from the spec's words: the cotangent of the interior angle of a
triangle at its first argument. -/
def specCotAngleAt (len3 : Vec3 → ℚ) (a b c : Vec3) : ℚ :=
  cotangent_tri_weight_v3 len3 a b c

/-- Stated from the spec's words: the standard non-obtuse Voronoi formula
`(1/8)(|pr|^2 cot(angle at q) + |pq|^2 cot(angle at r))`. -/
def specVoronoiFormula (len3 : Vec3 → ℚ) (p q r : Vec3) : ℚ :=
  (1 / 8) * (dotV (subV p r) (subV p r) * specCotAngleAt len3 q p r +
             dotV (subV p q) (subV p q) * specCotAngleAt len3 r q p)

/-- Exact vector length for vectors lying on the z axis; agrees with the
real Euclidean length on every cross product of z = 0 planar vectors, which
is the only place the length parameter is consumed in the concrete
evaluations below. -/
def lenZ (v : Vec3) : ℚ := if v.z < 0 then -v.z else v.z

/-- An edge record of the static mesh (`MEdge`): its two vertex indices. -/
structure MEdgeM where
  v1 : ℕ
  v2 : ℕ
deriving DecidableEq, Repr

/-- Embeds `BM_edge_other_vert` as used on `MEdge` records in
`SCULPT_faces_get_cotangents`: the endpoint of `e` other than `v`
(`vertex.i == e->v1 ? e->v2 : e->v1`). -/
def medge_other_vert (e : MEdgeM) (v : ℕ) : ℕ :=
  if v = e.v1 then e.v2 else e.v1

/-- The static-mesh data reached through the sculpt session by
`SCULPT_faces_get_cotangents`: vertex positions (`ss->mvert`), edges
(`ss->medge`) and the per-vertex incident-edge adjacency map (`ss->vemap`,
kept in disk-cycle order). -/
structure FacesMesh where
  mvert : List Vec3
  medge : List MEdgeM
  vemap : List (List ℕ)
deriving Repr

/-- The raw (unnormalized) per-edge weight `cot1 + cot2` of iteration `i`
of the loop of `SCULPT_faces_get_cotangents` (sculpt_dyntopo.c:238-258). -/
def facesRawW (len3 : Vec3 → ℚ) (m : FacesMesh) (vi : ℕ) (i : ℕ) : ℚ :=
  let elem := m.vemap.getD vi []
  let n := elem.length
  let v := m.mvert.getD vi v3zero
  let e1 := m.medge.getD (elem.getD ((i + n - 1) % n) 0) ⟨0, 0⟩
  let e2 := m.medge.getD (elem.getD (i % n) 0) ⟨0, 0⟩
  let e3 := m.medge.getD (elem.getD ((i + 1) % n) 0) ⟨0, 0⟩
  let v1 := m.mvert.getD (medge_other_vert e1 vi) v3zero
  let v2 := m.mvert.getD (medge_other_vert e2 vi) v3zero
  let v3 := m.mvert.getD (medge_other_vert e3 vi) v3zero
  cotangent_tri_weight_v3 len3 v1 v v2 + cotangent_tri_weight_v3 len3 v3 v2 v

/-- The per-wedge mixed Voronoi area of iteration `i` of the same loop
(`tri_voronoi_area(v->co, v1->co, v2->co)`). -/
def facesWedgeArea (len3 : Vec3 → ℚ) (m : FacesMesh) (vi : ℕ) (i : ℕ) : ℚ :=
  let elem := m.vemap.getD vi []
  let n := elem.length
  let v := m.mvert.getD vi v3zero
  let e1 := m.medge.getD (elem.getD ((i + n - 1) % n) 0) ⟨0, 0⟩
  let e2 := m.medge.getD (elem.getD (i % n) 0) ⟨0, 0⟩
  let v1 := m.mvert.getD (medge_other_vert e1 vi) v3zero
  let v2 := m.mvert.getD (medge_other_vert e2 vi) v3zero
  tri_voronoi_area len3 v v1 v2

/-- The accumulated total mixed Voronoi area `totarea` of
`SCULPT_faces_get_cotangents`. -/
def facesTotArea (len3 : Vec3 → ℚ) (m : FacesMesh) (vi : ℕ) : ℚ :=
  (List.range (m.vemap.getD vi []).length).foldl
    (fun acc i => acc + facesWedgeArea len3 m vi i) 0

/-- Embeds `SCULPT_faces_get_cotangents` (sculpt_dyntopo.c:224): the list
written into `r_ws`, i.e. the raw weights each multiplied by
`1 / (totarea * 2)` in the final loop. -/
def SCULPT_faces_get_cotangents (len3 : Vec3 → ℚ) (m : FacesMesh) (vi : ℕ) :
    List ℚ :=
  let totarea := facesTotArea len3 m vi
  (List.range (m.vemap.getD vi []).length).map
    (fun i => facesRawW len3 m vi i * (1 / (totarea * 2)))

/-- A boundary-rep vertex as seen by `SCULPT_dyntopo_get_cotangents` after
`SCULPT_dyntopo_check_disk_sort`: its position and, for each incident edge
in disk-cycle order starting at `v->e`, the position of the edge's other
vertex (`BM_edge_other_vert(e, v)`); `eprev`/`enext` of the source loop are
the cyclic predecessor/successor in this list. -/
structure BMDiskVert where
  co : Vec3
  nbrs : List Vec3
deriving Repr

/-- The raw (unnormalized) weight `cot1 + cot2` of iteration `i` of the
disk-cycle loop of `SCULPT_dyntopo_get_cotangents`
(sculpt_dyntopo.c:177-209). -/
def dyntopoRawW (len3 : Vec3 → ℚ) (v : BMDiskVert) (i : ℕ) : ℚ :=
  let n := v.nbrs.length
  let v1 := v.nbrs.getD ((i + n - 1) % n) v3zero
  let v2 := v.nbrs.getD (i % n) v3zero
  let v3 := v.nbrs.getD ((i + 1) % n) v3zero
  cotangent_tri_weight_v3 len3 v1 v.co v2 + cotangent_tri_weight_v3 len3 v3 v2 v.co

/-- The per-wedge mixed Voronoi area of iteration `i` of the same loop. -/
def dyntopoWedgeArea (len3 : Vec3 → ℚ) (v : BMDiskVert) (i : ℕ) : ℚ :=
  let n := v.nbrs.length
  let v1 := v.nbrs.getD ((i + n - 1) % n) v3zero
  let v2 := v.nbrs.getD (i % n) v3zero
  tri_voronoi_area len3 v.co v1 v2

/-- The accumulated total mixed Voronoi area `totarea` of
`SCULPT_dyntopo_get_cotangents`. -/
def dyntopoTotArea (len3 : Vec3 → ℚ) (v : BMDiskVert) : ℚ :=
  (List.range v.nbrs.length).foldl (fun acc i => acc + dyntopoWedgeArea len3 v i) 0

/-- Embeds `SCULPT_dyntopo_get_cotangents` (sculpt_dyntopo.c:156): the list
written into `r_ws` (empty when the vertex has no incident edge, matching
the early return on `!e`); every raw weight is multiplied by
`1 / (totarea * 2)`. -/
def SCULPT_dyntopo_get_cotangents (len3 : Vec3 → ℚ) (v : BMDiskVert) : List ℚ :=
  let totarea := dyntopoTotArea len3 v
  (List.range v.nbrs.length).map (fun i => dyntopoRawW len3 v i * (1 / (totarea * 2)))

/-- Concrete planar static mesh used to evaluate the cotangent queries: a
valence-3 vertex 0 at the origin with neighbors (2,0,0), (0,1,0) and
(-1,-1,0), all triangles non-degenerate. -/
def cexMesh : FacesMesh :=
  { mvert := [⟨0, 0, 0⟩, ⟨2, 0, 0⟩, ⟨0, 1, 0⟩, ⟨-1, -1, 0⟩]
    medge := [⟨0, 1⟩, ⟨0, 2⟩, ⟨0, 3⟩]
    vemap := [[0, 1, 2]] }

/-- The identical configuration presented as a boundary-rep disk cycle. -/
def cexDiskVert : BMDiskVert := ⟨⟨0, 0, 0⟩, [⟨2, 0, 0⟩, ⟨0, 1, 0⟩, ⟨-1, -1, 0⟩]⟩

/-- The `MDynTopoVert` flag bits touched by the disk-sort check,
represented as Boolean fields of the bitmask (`DYNVERT_NEED_DISK_SORT`,
`DYNVERT_NEED_VALENCE`; the numeric bit values live in a header outside
this tree). -/
structure DynVertFlags where
  needDiskSort : Bool
  needValence : Bool
deriving DecidableEq, Repr

/-- A boundary-rep vertex as touched by `SCULPT_dyntopo_check_disk_sort`:
its `MDynTopoVert` flags (reached through the `cd_dyn_vert` custom-data
layer) and its disk cycle, represented as the list of incident edge ids in
ring order. -/
structure DiskSortVert where
  flags : DynVertFlags
  disk : List ℕ
deriving DecidableEq, Repr

/-- Embeds `SCULPT_dyntopo_check_disk_sort` (sculpt_dyntopo.c:355).
`sortDisk` abstracts the external `BM_sort_disk_cycle` (an out-of-scope
BMesh collaborator) which rewrites the disk-cycle links of the vertex and
does not touch the custom-data flags. -/
def SCULPT_dyntopo_check_disk_sort (sortDisk : List ℕ → List ℕ)
    (v : DiskSortVert) : Bool × DiskSortVert :=
  if v.flags.needDiskSort then
    (true, { flags := { v.flags with needDiskSort := false }, disk := sortDisk v.disk })
  else
    (false, v)

/-- Modelled from the spec: the opaque type tag of the multiresolution
modifier (`eModifierType_Multires`; the numeric enum value lives in a
header outside this tree, only its identity matters). -/
def eModifierType_Multires : ℕ := 29

/-- A modifier as inspected by `SCULPT_dynamic_topology_check`: its type
tag, whether `BKE_modifier_is_enabled(scene, md, eModifierMode_Realtime)`
holds for the scene at hand, and whether the type info reached through
`BKE_modifier_get_info` has class `eModifierTypeType_Constructive`. -/
structure ModifierM where
  mtype : ℕ
  enabledRealtime : Bool
  constructive : Bool
deriving DecidableEq, Repr

/-- The `eDynTopoWarnFlag` bitmask as Boolean fields (`DYNTOPO_WARN_VDATA`,
`DYNTOPO_WARN_EDATA`, `DYNTOPO_WARN_LDATA`, `DYNTOPO_WARN_MODIFIER`,
`DYNTOPO_ERROR_MULTIRES`). -/
structure DynTopoWarnFlag where
  warnVData : Bool
  warnEData : Bool
  warnLData : Bool
  warnModifier : Bool
  errorMultires : Bool
deriving DecidableEq, Repr

/-- The zero bitmask (`enum eDynTopoWarnFlag flag = 0`). -/
def dynTopoWarnNone : DynTopoWarnFlag :=
  ⟨false, false, false, false, false⟩

/-- Whether the bitmask is nonzero (the `else if (flag)` test). -/
def DynTopoWarnFlag.isSet (f : DynTopoWarnFlag) : Bool :=
  f.warnVData || f.warnEData || f.warnLData || f.warnModifier || f.errorMultires

/-- The object state inspected and mutated by the dynamic-topology toggle:
whether the persistent mesh carries custom-data layers of types outside the
exception list for each element class (summarizing the `CD_NUMTYPES` scan
of `SCULPT_dynamic_topology_check`), the virtual modifier list, whether the
sculpt session owns a boundary-rep mesh (`ss->bm`), and the mesh's
`ME_SCULPT_DYNAMIC_TOPOLOGY` flag. -/
structure ToggleObject where
  hasExtraVData : Bool
  hasExtraEData : Bool
  hasExtraLData : Bool
  modifiers : List ModifierM
  bm : Option Unit
  meDynTopo : Bool
deriving DecidableEq, Repr

/-- The modifier scan of `SCULPT_dynamic_topology_check`
(sculpt_dyntopo.c:1129-1149): disabled modifiers are skipped, an enabled
multires modifier raises the error bit, and the scan stops at the first
enabled constructive modifier after raising the warning bit. -/
def dyntopoCheckModifiers : List ModifierM → DynTopoWarnFlag → DynTopoWarnFlag
  | [], flag => flag
  | md :: rest, flag =>
    if !md.enabledRealtime then dyntopoCheckModifiers rest flag
    else
      let flag := if md.mtype = eModifierType_Multires then
        { flag with errorMultires := true } else flag
      if md.constructive then { flag with warnModifier := true }
      else dyntopoCheckModifiers rest flag

/-- Embeds `SCULPT_dynamic_topology_check` (sculpt_dyntopo.c:1103): the
custom-data scan raises the three per-class warning bits, then the modifier
list is scanned. -/
def SCULPT_dynamic_topology_check (ob : ToggleObject) : DynTopoWarnFlag :=
  let flag := { dynTopoWarnNone with
    warnVData := ob.hasExtraVData
    warnEData := ob.hasExtraEData
    warnLData := ob.hasExtraLData }
  dyntopoCheckModifiers ob.modifiers flag

/-- The operator return statuses reached by the toggle
(`OPERATOR_FINISHED` from exec, `OPERATOR_INTERFACE` from the popups). -/
inductive OpStatus where
  | finished
  | interface
deriving DecidableEq, Repr

/-- Embeds `SCULPT_dynamic_topology_enable_ex` (sculpt_dyntopo.c:759) at
the state-machine granularity of the toggle claims: a boundary-rep mesh is
freshly allocated into the session (`ss->bm = BM_mesh_create(...)`) and
the mesh's dynamic-topology flag is set
(`me->flag |= ME_SCULPT_DYNAMIC_TOPOLOGY`). -/
def SCULPT_dynamic_topology_enable_ex (ob : ToggleObject) : ToggleObject :=
  { ob with bm := some (), meDynTopo := true }

/-- Embeds `SCULPT_dynamic_topology_disable_ex` (sculpt_dyntopo.c:924) at
the same granularity: the boundary-rep mesh is freed and the mesh flag
cleared. -/
def SCULPT_dynamic_topology_disable_ex (ob : ToggleObject) : ToggleObject :=
  { ob with bm := none, meDynTopo := false }

/-- Embeds `sculpt_dynamic_topology_toggle_exec` (sculpt_dyntopo.c:1031):
disable when a boundary-rep mesh exists, enable otherwise, returning
`OPERATOR_FINISHED`. -/
def sculpt_dynamic_topology_toggle_exec (ob : ToggleObject) :
    OpStatus × ToggleObject :=
  match ob.bm with
  | some _ => (OpStatus.finished, SCULPT_dynamic_topology_disable_ex ob)
  | none => (OpStatus.finished, SCULPT_dynamic_topology_enable_ex ob)

/-- Embeds `sculpt_dynamic_topology_toggle_invoke` (sculpt_dyntopo.c:1154):
with no boundary-rep mesh the check runs first; a multires conflict
returns the error popup (`OPERATOR_INTERFACE`) without calling exec, any
other nonzero flag returns the warning popup, and otherwise exec runs. -/
def sculpt_dynamic_topology_toggle_invoke (ob : ToggleObject) :
    OpStatus × ToggleObject :=
  match ob.bm with
  | none =>
    let flag := SCULPT_dynamic_topology_check ob
    if flag.errorMultires then (OpStatus.interface, ob)
    else if flag.isSet then (OpStatus.interface, ob)
    else sculpt_dynamic_topology_toggle_exec ob
  | some _ => sculpt_dynamic_topology_toggle_exec ob

/-- Concrete object with a single enabled multiresolution modifier and no
boundary-rep mesh, used to witness the multires guard. -/
def cexMultiresObject : ToggleObject :=
  { hasExtraVData := false
    hasExtraEData := false
    hasExtraLData := false
    modifiers := [{ mtype := eModifierType_Multires, enabledRealtime := true,
                    constructive := false }]
    bm := none
    meDynTopo := false }

/-- Modelled from the spec: one layer of a CustomData block
(implementation outside this tree): a type tag, an optional name (unnamed
layers have NULL names), the cached offset into the per-element data block,
and the `CD_FLAG_TEMPORARY` flag bit.  Names are opaque ids. -/
structure CDLayer where
  ltype : ℕ
  lname : Option ℕ
  offset : ℕ
  temporary : Bool
deriving DecidableEq, Repr

/-- Modelled from the spec: a CustomData block is its ordered list of
layers. -/
structure CustomDataM where
  layers : List CDLayer
deriving DecidableEq, Repr

/-- Whether a layer matches a type tag and a name. -/
def cdLayerMatches (t : ℕ) (nm : ℕ) (l : CDLayer) : Bool :=
  l.ltype == t && l.lname == some nm

/-- Modelled from the spec: `CustomData_get_named_layer_index` — the index
of the first layer with the given type and name, or -1. -/
def CustomData_get_named_layer_index (d : CustomDataM) (t : ℕ) (nm : ℕ) : ℤ :=
  match d.layers.findIdx? (cdLayerMatches t nm) with
  | some i => (i : ℤ)
  | none => -1

/-- Modelled from the spec: `CustomData_get_layer_index` — the index of the
first layer of the given type, or -1. -/
def CustomData_get_layer_index (d : CustomDataM) (t : ℕ) : ℤ :=
  match d.layers.findIdx? (fun l => l.ltype == t) with
  | some i => (i : ℤ)
  | none => -1

/-- Modelled from the spec: `CustomData_has_layer`. -/
def CustomData_has_layer (d : CustomDataM) (t : ℕ) : Bool :=
  d.layers.any (fun l => l.ltype == t)

/-- Modelled from the spec: `CustomData_get_n_offset` — the cached offset
of the n-th layer of the given type (the layer at the type's first index
plus `n`), or -1 when absent. -/
def CustomData_get_n_offset (d : CustomDataM) (t : ℕ) (n : ℕ) : ℤ :=
  match d.layers.findIdx? (fun l => l.ltype == t) with
  | some i =>
    match d.layers.get? (i + n) with
    | some l => (l.offset : ℤ)
    | none => -1
  | none => -1

/-- Modelled from the spec: after any layer-layout change all cached
offsets are recomputed; each layer's offset becomes the sum of the sizes of
the layers before it.  `tsize` gives the per-element size of each layer
type. -/
def recomputeOffsetsAux (tsize : ℕ → ℕ) : ℕ → List CDLayer → List CDLayer
  | _, [] => []
  | acc, l :: rest =>
    { l with offset := acc } :: recomputeOffsetsAux tsize (acc + tsize l.ltype) rest

/-- Offset recomputation over a whole CustomData block. -/
def recomputeOffsets (tsize : ℕ → ℕ) (d : CustomDataM) : CustomDataM :=
  ⟨recomputeOffsetsAux tsize 0 d.layers⟩

/-- Modelled from the spec: CustomData keeps the layers of one type
contiguous, so a new layer is inserted after all layers of types at most
its own. -/
def insertLayerOrdered (x : CDLayer) : List CDLayer → List CDLayer
  | [] => [x]
  | y :: ys => if y.ltype ≤ x.ltype then y :: insertLayerOrdered x ys else x :: y :: ys

/-- Modelled from the spec: `BM_data_layer_add_named` (and the unnamed
`CustomData` add): insert a fresh layer of the given type and optional
name, then recompute every cached offset ("invalidate all cached offsets
for that element class, then recompute"). -/
def cdAddLayer (tsize : ℕ → ℕ) (d : CustomDataM) (t : ℕ) (nm : Option ℕ) : CustomDataM :=
  recomputeOffsets tsize ⟨insertLayerOrdered ⟨t, nm, 0, false⟩ d.layers⟩

/-- A row of the `BMCustomLayerReq` arrays passed to
`BM_data_layers_ensure`: a type and an optional name. -/
structure BMCustomLayerReq where
  rtype : ℕ
  rname : Option ℕ
deriving DecidableEq, Repr

/-- Whether a requested layer is already present. -/
def layerReqPresent (d : CustomDataM) (r : BMCustomLayerReq) : Bool :=
  match r.rname with
  | some nm => decide (0 ≤ CustomData_get_named_layer_index d r.rtype nm)
  | none => CustomData_has_layer d r.rtype

/-- Modelled from the spec: `BM_data_layers_ensure` — add each requested
layer that is absent. -/
def BM_data_layers_ensure (tsize : ℕ → ℕ) (d : CustomDataM)
    (reqs : List BMCustomLayerReq) : CustomDataM :=
  reqs.foldl
    (fun d r => if layerReqPresent d r then d else cdAddLayer tsize d r.rtype r.rname) d

/-- Raises the temporary bit of the layer at a position in a layer list. -/
def setTempList : ℕ → List CDLayer → List CDLayer
  | _, [] => []
  | 0, l :: rest => { l with temporary := true } :: rest
  | n + 1, l :: rest => l :: setTempList n rest

/-- Sets the `CD_FLAG_TEMPORARY` bit of the layer at a given index
(`ss->bm->vdata.layers[li].flag |= CD_FLAG_TEMPORARY`); negative indices
leave the block unchanged. -/
def cdSetTemporaryAt (d : CustomDataM) (i : ℤ) : CustomDataM :=
  if i < 0 then d
  else ⟨setTempList i.toNat d.layers⟩

/-- Modelled from the spec: the custom-data type tags used by the node
layers (opaque integer ids from a header outside this tree; only their
identities matter). -/
def CD_PAINT_MASK : ℕ := 34

/-- Modelled from the spec: the `CD_DYNTOPO_VERT` type tag. -/
def CD_DYNTOPO_VERT : ℕ := 48

/-- Modelled from the spec: the `CD_PROP_INT32` type tag. -/
def CD_PROP_INT32 : ℕ := 11

/-- Modelled from the spec: the `CD_PROP_FLOAT` type tag. -/
def CD_PROP_FLOAT : ℕ := 10

/-- The layer name `_dyntopo_node_id` as an opaque id. -/
def dyntopop_node_idx_layer_id : ℕ := 1

/-- The layer name `__dyntopo_face_areas` as an opaque id. -/
def dyntopop_faces_areas_layer_id : ℕ := 2

/-- The sculpt-session state touched by the temporary-layer manager: the
boundary-rep mesh's vertex (`ss->bm->vdata`) and face (`ss->bm->pdata`)
custom-data blocks. -/
structure TempLayerSS where
  vdata : CustomDataM
  pdata : CustomDataM
deriving DecidableEq, Repr

/-- The three standard vertex-layer requests of
`SCULPT_dyntopo_node_layers_add` (sculpt_dyntopo.c:587). -/
def nodeVLayerReqs : List BMCustomLayerReq :=
  [⟨CD_PAINT_MASK, none⟩, ⟨CD_DYNTOPO_VERT, none⟩,
   ⟨CD_PROP_INT32, some dyntopop_node_idx_layer_id⟩]

/-- The two standard face-layer requests of `SCULPT_dyntopo_node_layers_add`
(sculpt_dyntopo.c:593). -/
def nodeFLayerReqs : List BMCustomLayerReq :=
  [⟨CD_PROP_INT32, some dyntopop_node_idx_layer_id⟩,
   ⟨CD_PROP_FLOAT, some dyntopop_faces_areas_layer_id⟩]

/-- Embeds `SCULPT_dyntopo_node_layers_add` (sculpt_dyntopo.c:580) at the
custom-data level: ensure the standard vertex and face layers, then mark
the two node-index layers temporary; the cached session/pbvh offsets it
refreshes are derived data with no feedback into the blocks. -/
def SCULPT_dyntopo_node_layers_add (tsize : ℕ → ℕ) (ss : TempLayerSS) : TempLayerSS :=
  let vdata := BM_data_layers_ensure tsize ss.vdata nodeVLayerReqs
  let pdata := BM_data_layers_ensure tsize ss.pdata nodeFLayerReqs
  let vdata := cdSetTemporaryAt vdata
    (CustomData_get_named_layer_index vdata CD_PROP_INT32 dyntopop_node_idx_layer_id)
  let pdata := cdSetTemporaryAt pdata
    (CustomData_get_named_layer_index pdata CD_PROP_INT32 dyntopop_node_idx_layer_id)
  { vdata := vdata, pdata := pdata }

/-- Embeds `SCULPT_dyntopo_node_layers_update_offsets`
(sculpt_dyntopo.c:533): re-runs the layer ensure and pushes the refreshed
offsets to the pbvh and the undo log (both outside the blocks). -/
def SCULPT_dyntopo_node_layers_update_offsets (tsize : ℕ → ℕ)
    (ss : TempLayerSS) : TempLayerSS :=
  SCULPT_dyntopo_node_layers_add tsize ss

/-- Embeds `SCULPT_dyntopo_ensure_templayer` (sculpt_dyntopo.c:553): when
the named and typed vertex layer is absent, add it, refresh the node-layer
offsets, and mark the layer temporary; otherwise do nothing. -/
def SCULPT_dyntopo_ensure_templayer (tsize : ℕ → ℕ) (ss : TempLayerSS)
    (t : ℕ) (nm : ℕ) : TempLayerSS :=
  let li := CustomData_get_named_layer_index ss.vdata t nm
  if li < 0 then
    let ss1 : TempLayerSS := { ss with vdata := cdAddLayer tsize ss.vdata t (some nm) }
    let ss2 := SCULPT_dyntopo_node_layers_update_offsets tsize ss1
    let li2 := CustomData_get_named_layer_index ss2.vdata t nm
    { ss2 with vdata := cdSetTemporaryAt ss2.vdata li2 }
  else ss

/-- Embeds `SCULPT_dyntopo_get_templayer` (sculpt_dyntopo.c:566): -1 when
the named and typed vertex layer is absent, else its cached offset looked
up as the `li - first-index-of-type` th layer of the type. -/
def SCULPT_dyntopo_get_templayer (ss : TempLayerSS) (t : ℕ) (nm : ℕ) : ℤ :=
  let li := CustomData_get_named_layer_index ss.vdata t nm
  if li < 0 then -1
  else CustomData_get_n_offset ss.vdata t
    (li - CustomData_get_layer_index ss.vdata t).toNat

/-- Whether the five standard node layers are present (the steady state of
a dynamic-topology session, established by the enable transition). -/
def stdNodeLayersPresent (ss : TempLayerSS) : Bool :=
  nodeVLayerReqs.all (layerReqPresent ss.vdata) &&
  nodeFLayerReqs.all (layerReqPresent ss.pdata)

/-- Concrete session custom-data state for the temporary-layer witness: the
five standard node layers are present and no layer of type `CD_PROP_FLOAT`
named 7 exists. -/
def cexLayerSS : TempLayerSS :=
  { vdata := ⟨[⟨CD_PROP_INT32, some dyntopop_node_idx_layer_id, 0, false⟩,
               ⟨CD_PAINT_MASK, none, 4, false⟩,
               ⟨CD_DYNTOPO_VERT, none, 8, false⟩]⟩
    pdata := ⟨[⟨CD_PROP_FLOAT, some dyntopop_faces_areas_layer_id, 0, false⟩,
               ⟨CD_PROP_INT32, some dyntopop_node_idx_layer_id, 4, false⟩]⟩ }

/-- The abstract float helpers reached by the UV solver that have no exact
rational counterpart: the 3-vector length (`len_v3`), the square root used
by `normalize_v2_db`, the safe arc-cosine `saacos`, the constant `M_PI`,
and (modelled from the spec: "target = the 3D angle at that corner") the
angle between two 3-vectors computed by `normalize_v3` + `saacosf` in the
constraint setup.  Every solver theorem holds for all instantiations. -/
structure FloatOps where
  len3 : Vec3 → ℚ
  sqrtF : ℚ → ℚ
  acosF : ℚ → ℚ
  piF : ℚ
  angle3d : Vec3 → Vec3 → ℚ

/-- The loop cap `MAXUVLOOPS` of `UVSmoothVert`. -/
def MAXUVLOOPS : ℕ := 32

/-- The neighbor cap `MAXUVNEIGHBORS` of `UVSmoothVert`. -/
def MAXUVNEIGHBORS : ℕ := 32

/-- The constraint type `CON_ANGLES`. -/
def CON_ANGLES : ℕ := 0

/-- The constraint type `CON_AREA`. -/
def CON_AREA : ℕ := 1

/-- The solver tolerance `eval_limit` = 0.00001 of `uvsolver_solve_step`. -/
def evalLimit : ℚ := 1 / 100000

/-- The finite-difference step `df` = 0.0001 of `uvsolver_solve_step`. -/
def dfStep : ℚ := 1 / 10000

/-- Exact absolute value, embedding `fabs` / `fabsf`. -/
def fabsQ (q : ℚ) : ℚ := if q < 0 then -q else q

/-- A face corner (`BMLoop`) as consumed by the UV solver: its id, the
`MLoopUV` uv read through `cd_uv`, the vertex world position `l->v->co`,
and the seam flag of its edge (`BM_elem_flag_test(l->e, BM_ELEM_SEAM)`). -/
structure SLoop where
  lid : ℕ
  uv : ℚ × ℚ
  co : Vec3
  eSeam : Bool
deriving DecidableEq, Repr

/-- A triangulated face handed to `uvsolver_ensure_face`: `f->l_first` and
its two successors (dyntopo meshes are triangulated, so the corner loop of
the source visits exactly these three). -/
structure SFace where
  fid : ℕ
  l0 : SLoop
  l1 : SLoop
  l2 : SLoop
deriving DecidableEq, Repr

/-- Embeds `UVSmoothVert`: the solved uv, the world position, the pinned
and boundary marks, and the recorded loops (`ls`, `totloop` is the length,
capped at `MAXUVLOOPS`) and neighbor links (`neighbors`, `totneighbor` is
the length, capped at `MAXUVNEIGHBORS`).  The unused `w`/`totw` fields of
the source struct are omitted. -/
structure UVSmoothVert where
  uv : ℚ × ℚ
  co : Vec3
  pinned : Bool
  boundary : Bool
  ls : List ℕ
  neighbors : List ℕ
deriving DecidableEq, Repr

/-- The all-zero solver vertex (the default for out-of-range reads the
source never performs). -/
def svDefault : UVSmoothVert :=
  { uv := (0, 0), co := v3zero, pinned := false, boundary := false, ls := [], neighbors := [] }

/-- Embeds `UVSmoothTri`: the three solver-vert ids and the cached 2d/3d
areas. -/
structure UVSmoothTri where
  vs : ℕ × ℕ × ℕ
  area2d : ℚ
  area3d : ℚ
deriving DecidableEq, Repr

/-- The all-zero triangle record. -/
def triDefault : UVSmoothTri := ⟨(0, 0, 0), 0, 0⟩

/-- Embeds `UVSmoothConstraint`: the type (`CON_ANGLES`/`CON_AREA`), the
stiffness `k`, the participating solver-vert ids (`totvert` is always 3 in
the source), the owning triangle of an area constraint (`NULL` for angle
constraints), and `params[0]` (the rest angle).  The gradient scratch `gs`
is recomputed before every use and is kept local to the step function. -/
structure UVSmoothCon where
  ctype : ℕ
  k : ℚ
  vs : List ℕ
  tri : Option ℕ
  param0 : ℚ
deriving DecidableEq, Repr

/-- Embeds `UVSolver` together with the mesh `MLoopUV` layer its write-back
loops mutate: `verts`/`tris`/`cons` are the mempools with ids equal to
allocation order, `vhash` maps quantized uv keys to vert ids, `fhash` maps
face ids to tri ids, and `luvs` holds the mesh `MLoopUV` records indexed by
loop id. -/
structure UVSolver where
  verts : List UVSmoothVert
  vhash : List (ℤ × ℕ)
  fhash : List (ℕ × ℕ)
  tris : List UVSmoothTri
  cons : List UVSmoothCon
  totarea2d : ℚ
  totarea3d : ℚ
  strength : ℚ
  luvs : List (ℕ × (ℚ × ℚ))
deriving DecidableEq, Repr

/-- Truncation toward zero of an exact rational, embedding the C cast
`(intptr_t)` of a floating value. -/
def truncQ (q : ℚ) : ℤ :=
  if q < 0 then -(((-q).num.natAbs / (-q).den : ℕ) : ℤ)
  else ((q.num.natAbs / q.den : ℕ) : ℤ)

/-- Embeds `uvsolver_calc_loop_key` (sculpt_dyntopo.c:1279): the quantized
key `y * 16384 + x` built from the integer casts of `uv * 16384.0` (the
snap-limit-floored `u` and `v` computed before it are dead stores). -/
def uvsolver_calc_loop_key (uv : ℚ × ℚ) : ℤ :=
  let x := truncQ (uv.1 * 16384)
  let y := truncQ (uv.2 * 16384)
  y * 16384 + x

/-- Replaces the solver vertex at a given id by the image of a function
(the source mutates the mempool object in place). -/
def updVert : ℕ → (UVSmoothVert → UVSmoothVert) → List UVSmoothVert → List UVSmoothVert
  | _, _, [] => []
  | 0, f, v :: rest => f v :: rest
  | n + 1, f, v :: rest => v :: updVert n f rest

/-- Reads the solver vertex at an id. -/
def getSV (verts : List UVSmoothVert) (i : ℕ) : UVSmoothVert :=
  verts.getD i svDefault

/-- The loop-recording tail of `uvsolver_get_vert`
(sculpt_dyntopo.c:1318-1320): append the loop unless the array is full
(`v->totloop < MAXUVLOOPS`), silently dropping it otherwise. -/
def recordLoop (lid : ℕ) (v : UVSmoothVert) : UVSmoothVert :=
  if v.ls.length < MAXUVLOOPS then { v with ls := v.ls ++ [lid] } else v

/-- Embeds `uvsolver_get_vert` (sculpt_dyntopo.c:1294): look the loop's
quantized uv key up in `vhash`, allocating a fresh solver vertex that
snapshots the loop's uv and position on a miss, then record the loop on
the vertex. -/
def uvsolver_get_vert (s : UVSolver) (l : SLoop) : UVSolver × ℕ :=
  match s.vhash.lookup (uvsolver_calc_loop_key l.uv) with
  | some vi =>
    ({ s with verts := updVert vi (recordLoop l.lid) s.verts }, vi)
  | none =>
    ({ s with
        verts := updVert s.verts.length (recordLoop l.lid)
          (s.verts ++ [{ uv := l.uv, co := l.co, pinned := false, boundary := false,
                         ls := [], neighbors := [] }])
        vhash := (uvsolver_calc_loop_key l.uv, s.verts.length) :: s.vhash },
      s.verts.length)

/-- Embeds `area_tri_signed_v2_db` (sculpt_dyntopo.c:1325). -/
def area_tri_signed_v2_db (v1 v2 v3 : ℚ × ℚ) : ℚ :=
  (1 / 2) * ((v1.1 - v2.1) * (v2.2 - v3.2) + (v1.2 - v2.2) * (v3.1 - v2.1))

/-- Embeds `area_tri_v2_db` (sculpt_dyntopo.c:1330). -/
def area_tri_v2_db (v1 v2 v3 : ℚ × ℚ) : ℚ :=
  fabsQ (area_tri_signed_v2_db v1 v2 v3)

/-- The three `uvsolver_get_vert` calls of the corner loop of
`uvsolver_ensure_face` on a triangulated face, returning the updated
solver and `tri->vs`. -/
def uvsolver_face_verts (s : UVSolver) (f : SFace) : UVSolver × (ℕ × ℕ × ℕ) :=
  ((uvsolver_get_vert (uvsolver_get_vert (uvsolver_get_vert s f.l0).1 f.l1).1 f.l2).1,
   ((uvsolver_get_vert s f.l0).2,
    (uvsolver_get_vert (uvsolver_get_vert s f.l0).1 f.l1).2,
    (uvsolver_get_vert (uvsolver_get_vert (uvsolver_get_vert s f.l0).1 f.l1).1 f.l2).2))

/-- The degenerate-uv nudge of `uvsolver_ensure_face`
(sculpt_dyntopo.c:1393-1398), applied when the 2d area is below 1e-6. -/
def uvsolverNudge (verts : List UVSmoothVert) (a b c : ℕ) : List UVSmoothVert :=
  updVert c (fun v => { v with uv := (v.uv.1, v.uv.2 + 1 / 10000) })
    (updVert b (fun v => { v with uv := (v.uv.1 + 1 / 10000, v.uv.2) })
      (updVert a (fun v => { v with uv := (v.uv.1 - 1 / 10000, v.uv.2 - 1 / 10000) }) verts))

/-- The corner of a triangle's vert triple, cyclically indexed. -/
def triCorner (vs : ℕ × ℕ × ℕ) (i : ℕ) : ℕ :=
  if i % 3 = 0 then vs.1 else if i % 3 = 1 then vs.2.1 else vs.2.2

/-- The constraint pair created for corner `i` by `uvsolver_ensure_face`
(sculpt_dyntopo.c:1406-1445): one angle-preservation constraint (k = 0.5,
`params[0]` = the 3d angle at the corner, no triangle back-pointer) and one
area-preservation constraint (k = 1, backed by the triangle). -/
def uvsolverCornerCons (fo : FloatOps) (verts : List UVSmoothVert) (triId : ℕ)
    (vs : ℕ × ℕ × ℕ) (i : ℕ) : List UVSmoothCon :=
  let v0 := triCorner vs (i + 2)
  let v1 := triCorner vs i
  let v2 := triCorner vs (i + 1)
  let th3d := fo.angle3d (subV (getSV verts v0).co (getSV verts v1).co)
                         (subV (getSV verts v2).co (getSV verts v1).co)
  [{ ctype := CON_ANGLES, k := 1 / 2, vs := [v0, v1, v2], tri := none, param0 := th3d },
   { ctype := CON_AREA, k := 1, vs := [v0, v1, v2], tri := some triId, param0 := 0 }]

/-- One iteration of the neighbor-linking loop of `uvsolver_ensure_face`
(sculpt_dyntopo.c:1448-1469): link `v1` and `v2` unless `v2` is already
recorded on `v1` or either neighbor array is full. -/
def uvsolverLinkNeighbors (verts : List UVSmoothVert) (v1 v2 : ℕ) : List UVSmoothVert :=
  if !((getSV verts v1).neighbors.contains v2) &&
      decide ((getSV verts v1).neighbors.length < MAXUVNEIGHBORS) &&
      decide ((getSV verts v2).neighbors.length < MAXUVNEIGHBORS) then
    updVert v2 (fun v => { v with neighbors := v.neighbors ++ [v1] })
      (updVert v1 (fun v => { v with neighbors := v.neighbors ++ [v2] }) verts)
  else verts

/-- The seam test `nocon` of `uvsolver_ensure_face`: whether any corner's
edge is a seam. -/
def uvsolverFaceNocon (f : SFace) : Bool :=
  f.l0.eSeam || f.l1.eSeam || f.l2.eSeam

/-- The 3d area of the face's corner triangle read off the solver verts. -/
def uvsolverFaceArea3d (fo : FloatOps) (verts : List UVSmoothVert)
    (abc : ℕ × ℕ × ℕ) : ℚ :=
  area_tri_v3 fo.len3 (getSV verts abc.1).co (getSV verts abc.2.1).co
    (getSV verts abc.2.2).co

/-- The 2d uv area of the face's corner triangle read off the solver
verts. -/
def uvsolverFaceArea2d (verts : List UVSmoothVert) (abc : ℕ × ℕ × ℕ) : ℚ :=
  area_tri_v2_db (getSV verts abc.1).uv (getSV verts abc.2.1).uv
    (getSV verts abc.2.2).uv

/-- The solver verts after the degenerate-uv nudge of
`uvsolver_ensure_face` (applied when the 2d area is below 1e-6). -/
def uvsolverFaceVertsNudged (verts : List UVSmoothVert) (abc : ℕ × ℕ × ℕ) :
    List UVSmoothVert :=
  if uvsolverFaceArea2d verts abc < 1 / 1000000 then
    uvsolverNudge verts abc.1 abc.2.1 abc.2.2
  else verts

/-- The constraints created for one face: none at all when `nocon` (a seam
edge was seen), otherwise the angle/area pair for each corner in order. -/
def uvsolverFaceCons (fo : FloatOps) (verts : List UVSmoothVert) (ti : ℕ)
    (abc : ℕ × ℕ × ℕ) (nocon : Bool) : List UVSmoothCon :=
  if nocon then []
  else uvsolverCornerCons fo verts ti abc 0 ++
       uvsolverCornerCons fo verts ti abc 1 ++
       uvsolverCornerCons fo verts ti abc 2

/-- The three neighbor-linking iterations of `uvsolver_ensure_face`. -/
def uvsolverLink3 (verts : List UVSmoothVert) (abc : ℕ × ℕ × ℕ) :
    List UVSmoothVert :=
  uvsolverLinkNeighbors
    (uvsolverLinkNeighbors (uvsolverLinkNeighbors verts abc.1 abc.2.1) abc.2.1 abc.2.2)
    abc.2.2 abc.1

/-- The new-face path of `uvsolver_ensure_face`, acting on the solver state
`s1` left by the three corner `uvsolver_get_vert` calls with corner verts
`abc`: the areas are computed and accumulated, near-zero 2d area triggers
the uv nudge, the six constraints are created from the post-nudge verts
unless the face has a seam edge, and the corner pairs are
neighbor-linked. -/
def uvsolverEnsureFaceNew (fo : FloatOps) (s1 : UVSolver) (f : SFace)
    (abc : ℕ × ℕ × ℕ) : UVSolver × ℕ :=
  ({ s1 with
      verts := uvsolverLink3 (uvsolverFaceVertsNudged s1.verts abc) abc
      fhash := (f.fid, s1.tris.length) :: s1.fhash
      tris := s1.tris ++ [⟨abc, uvsolverFaceArea2d s1.verts abc,
        uvsolverFaceArea3d fo s1.verts abc⟩]
      cons := s1.cons ++ uvsolverFaceCons fo (uvsolverFaceVertsNudged s1.verts abc)
        s1.tris.length abc (uvsolverFaceNocon f)
      totarea2d := s1.totarea2d + uvsolverFaceArea2d s1.verts abc
      totarea3d := s1.totarea3d + uvsolverFaceArea3d fo s1.verts abc },
    s1.tris.length)

/-- Embeds `uvsolver_ensure_face` (sculpt_dyntopo.c:1357) for triangulated
faces: a face already in `fhash` returns its triangle, otherwise the three
corners are resolved through `uvsolver_get_vert` and the new-face path
runs. -/
def uvsolver_ensure_face (fo : FloatOps) (s : UVSolver) (f : SFace) : UVSolver × ℕ :=
  match s.fhash.lookup f.fid with
  | some ti => (s, ti)
  | none =>
    uvsolverEnsureFaceNew fo (uvsolver_face_verts s f).1 f (uvsolver_face_verts s f).2

/-- Embeds `normalize_v2_db` (sculpt_dyntopo.c:1475): squared lengths below
1e-7 zero the vector; otherwise both components are divided by the square
root of the squared length (through the abstract float sqrt). -/
def normalize_v2_db (sqrtF : ℚ → ℚ) (v : ℚ × ℚ) : ℚ × ℚ :=
  let len := v.1 * v.1 + v.2 * v.2
  if len < 1 / 10000000 then (0, 0)
  else
    let len := sqrtF len
    (v.1 * (1 / len), v.2 * (1 / len))

/-- 2-vector dot product (`dot_v2v2_db`). -/
def dot2 (a b : ℚ × ℚ) : ℚ := a.1 * b.1 + a.2 * b.2

/-- 2-vector subtraction (`sub_v2_v2v2_db`). -/
def sub2 (a b : ℚ × ℚ) : ℚ × ℚ := (a.1 - b.1, a.2 - b.2)

/-- Embeds `uvsolver_vert_weight` (sculpt_dyntopo.c:1539): pinned or
boundary verts get weight 100000, everything else 1. -/
def uvsolver_vert_weight (sv : UVSmoothVert) : ℚ :=
  if sv.pinned || sv.boundary then 100000 else 1

/-- Embeds `uvsolver_eval_constraint` (sculpt_dyntopo.c:1494).  The store
into `con->tri->area2d` in the area branch is dead in the solve loop
(nothing reads it before the solver is freed), so evaluation is pure
here. -/
def uvsolver_eval_constraint (fo : FloatOps) (s : UVSolver) (con : UVSmoothCon) : ℚ :=
  if con.ctype = CON_ANGLES then
    let v0 := getSV s.verts (con.vs.getD 0 0)
    let v1 := getSV s.verts (con.vs.getD 1 0)
    let v2 := getSV s.verts (con.vs.getD 2 0)
    let t1 := normalize_v2_db fo.sqrtF (sub2 v0.uv v1.uv)
    let t2 := normalize_v2_db fo.sqrtF (sub2 v2.uv v1.uv)
    let th0 := fo.acosF (dot2 t1 t2)
    let wind := t1.1 * t2.2 - t1.2 * t2.1
    let th := if 0 ≤ wind then fo.piF - th0 else th0
    th - con.param0
  else if con.ctype = CON_AREA then
    let v0 := getSV s.verts (con.vs.getD 0 0)
    let v1 := getSV s.verts (con.vs.getD 1 0)
    let v2 := getSV s.verts (con.vs.getD 2 0)
    let tri := s.tris.getD (con.tri.getD 0) triDefault
    if tri.area3d = 0 || s.totarea3d = 0 then 0
    else
      let area2d := area_tri_signed_v2_db v0.uv v1.uv v2.uv
      let goal := tri.area3d * s.totarea2d / s.totarea3d
      (area2d - goal) * 1024
  else 0

/-- Updates the `MLoopUV` record of one loop id. -/
def setLoopUV (luvs : List (ℕ × (ℚ × ℚ))) (lid : ℕ) (uv : ℚ × ℚ) :
    List (ℕ × (ℚ × ℚ)) :=
  luvs.map (fun e => if e.1 = lid then (e.1, uv) else e)

/-- The "update real uvs" write-back shared by `uvsolver_simple_relax` and
`uvsolver_solve_step`: every solver vertex's uv is written into each of its
recorded loops (`sv->ls[0 .. totloop)`), and nothing else. -/
def uvsolverUpdateUVs (verts : List UVSmoothVert) (luvs : List (ℕ × (ℚ × ℚ))) :
    List (ℕ × (ℚ × ℚ)) :=
  verts.foldl (fun m sv => sv.ls.foldl (fun m2 lid => setLoopUV m2 lid sv.uv) m) luvs

/-- The neighbor uv samples accumulated for one relaxed vertex
(sculpt_dyntopo.c:1587-1597): null entries and, for a boundary vertex,
non-boundary neighbors are skipped. -/
def uvsolverRelaxContrib (verts : List UVSmoothVert) (sv1 : UVSmoothVert) :
    List (ℚ × ℚ) :=
  sv1.neighbors.filterMap (fun ni =>
    match verts.get? ni with
    | none => none
    | some sv2 => if sv1.boundary && !sv2.boundary then none else some sv2.uv)

/-- One vertex of the relaxation loop of `uvsolver_simple_relax`
(sculpt_dyntopo.c:1579-1608), continued: when at least two neighbors
contributed, the vertex moves toward their average at the given
strength. -/
def uvsolverRelaxVert (verts : List UVSmoothVert) (strength : ℚ) (i : ℕ) :
    List UVSmoothVert :=
  match verts.get? i with
  | none => verts
  | some sv1 =>
    if sv1.neighbors.length = 0 || sv1.pinned then verts
    else if ((uvsolverRelaxContrib verts sv1).length : ℚ) < 2 then verts
    else
      updVert i (fun sv => { sv with uv :=
        (sv.uv.1 + (((uvsolverRelaxContrib verts sv1).map Prod.fst).sum /
            ((uvsolverRelaxContrib verts sv1).length : ℚ) - sv.uv.1) * strength,
         sv.uv.2 + (((uvsolverRelaxContrib verts sv1).map Prod.snd).sum /
            ((uvsolverRelaxContrib verts sv1).length : ℚ) - sv.uv.2) * strength) }) verts

/-- The relaxation pass of `uvsolver_simple_relax` over the vert pool in
allocation order (Gauss-Seidel: later verts see earlier updates). -/
def uvsolverRelaxPass (verts : List UVSmoothVert) (strength : ℚ) :
    List UVSmoothVert :=
  (List.range verts.length).foldl (fun vs i => uvsolverRelaxVert vs strength i) verts

/-- Embeds `uvsolver_simple_relax` (sculpt_dyntopo.c:1571), continued: the
relaxation pass over the vert pool in allocation order, then the
write-back of every solver vert's uv into its recorded mesh loops. -/
def uvsolver_simple_relax (s : UVSolver) (strength : ℚ) : UVSolver :=
  { s with verts := uvsolverRelaxPass s.verts strength
           luvs := uvsolverUpdateUVs (uvsolverRelaxPass s.verts strength) s.luvs }

/-- Adds `d` to one uv component of one solver vertex (the finite
difference probe of `uvsolver_solve_step`, which the source restores
exactly before the next probe). -/
def perturbUV (s : UVSolver) (vi j : ℕ) (d : ℚ) : UVSolver :=
  { s with verts := updVert vi (fun v =>
      if j = 0 then { v with uv := (v.uv.1 + d, v.uv.2) }
      else { v with uv := (v.uv.1, v.uv.2 + d) }) s.verts }

/-- The finite-difference gradients `con->gs` of one constraint
(sculpt_dyntopo.c:1661-1678): each probe perturbs one coordinate by `df`
from the same base state. -/
def uvsolverConGrads (fo : FloatOps) (s : UVSolver) (con : UVSmoothCon) (r1 : ℚ) :
    List (ℚ × ℚ) :=
  con.vs.map (fun vi =>
    ((uvsolver_eval_constraint fo (perturbUV s vi 0 dfStep) con - r1) / dfStep,
     (uvsolver_eval_constraint fo (perturbUV s vi 1 dfStep) con - r1) / dfStep))

/-- The squared gradient norm `totg` accumulated for one constraint. -/
def uvsolverConTotg (fo : FloatOps) (s : UVSolver) (con : UVSmoothCon) : ℚ :=
  ((uvsolverConGrads fo s con (uvsolver_eval_constraint fo s con)).map
    (fun g => g.1 * g.1 + g.2 * g.2)).sum

/-- The weight total `totw` accumulated for one constraint (one
`1 / weight` per vertex per coordinate). -/
def uvsolverConTotw (s : UVSolver) (con : UVSmoothCon) : ℚ :=
  (con.vs.map (fun vi => 2 * (1 / uvsolver_vert_weight (getSV s.verts vi)))).sum

/-- The correction application loop (sculpt_dyntopo.c:1687-1694): each
participating vertex moves by `r1 * gs[i][j] * w` with
`w = 1 / (weight * totw)`. -/
def uvsolverApplyCorrections (s : UVSolver) (vsgs : List (ℕ × (ℚ × ℚ)))
    (r1s totw : ℚ) : UVSolver :=
  vsgs.foldl (fun acc p =>
    let w := 1 / (uvsolver_vert_weight (getSV acc.verts p.1) * totw)
    { acc with verts := updVert p.1 (fun v =>
        { v with uv := (v.uv.1 + r1s * p.2.1 * w, v.uv.2 + r1s * p.2.2 * w) }) acc.verts }) s

/-- The processing of one constraint inside `uvsolver_solve_step`
(sculpt_dyntopo.c:1647-1695), returning the updated solver and the error
contribution: a residual magnitude below `eval_limit` skips the constraint
entirely; the correction divides by the squared gradient norm `totg` only
after checking `totg` is at least `eval_limit`. -/
def uvsolver_con_step (fo : FloatOps) (s : UVSolver) (con : UVSmoothCon) :
    UVSolver × ℚ :=
  let r1 := uvsolver_eval_constraint fo s con
  if fabsQ r1 < evalLimit then (s, 0)
  else
    let gs := uvsolverConGrads fo s con r1
    let totg := (gs.map (fun g => g.1 * g.1 + g.2 * g.2)).sum
    let totw := uvsolverConTotw s con
    if totg < evalLimit then (s, fabsQ r1)
    else
      let r1s := r1 * (-s.strength * (3 / 4) * con.k / totg)
      (uvsolverApplyCorrections s (con.vs.zip gs) r1s totw, fabsQ r1)

/-- Embeds `uvsolver_solve_step` (sculpt_dyntopo.c:1627): a negative
strength performs only the simple relaxation at `fabs(strength)` and
returns 0 immediately; otherwise a relaxation pass at `strength * 0.1`
runs, every constraint is processed Gauss-Seidel style in pool order, the
solver verts are written back to the mesh loops, and the averaged error is
returned. -/
def uvsolver_solve_step (fo : FloatOps) (s : UVSolver) : UVSolver × ℚ :=
  if s.strength < 0 then
    (uvsolver_simple_relax s (fabsQ s.strength), 0)
  else
    let s1 := uvsolver_simple_relax s (s.strength * (1 / 10))
    let r := s1.cons.foldl
      (fun acc con =>
        let r' := uvsolver_con_step fo acc.1 con
        (r'.1, acc.2 + r'.2)) (s1, (0 : ℚ))
    ({ r.1 with luvs := uvsolverUpdateUVs r.1.verts r.1.luvs },
      r.2 / (s1.cons.length : ℚ))

def cexRelaxSolver : UVSolver :=
  { verts := [{ uv := (0, 0), co := v3zero, pinned := false, boundary := true,
                ls := [], neighbors := [1, 2] },
              { uv := (1, 0), co := v3zero, pinned := true, boundary := true,
                ls := [], neighbors := [] },
              { uv := (0, 1), co := v3zero, pinned := true, boundary := true,
                ls := [], neighbors := [] }]
    vhash := [], fhash := [], tris := [], cons := []
    totarea2d := 0, totarea3d := 0, strength := 1, luvs := [] }

def uvsolverVertOk (n : ℕ) (v : UVSmoothVert) : Prop :=
  v.ls.length ≤ MAXUVLOOPS ∧ v.neighbors.length ≤ MAXUVNEIGHBORS ∧
  v.neighbors.Nodup ∧ ∀ m ∈ v.neighbors, m < n

def uvsolverInv (verts : List UVSmoothVert) : Prop :=
  (∀ v ∈ verts, uvsolverVertOk verts.length v) ∧
  (∀ i j vi vj, verts.get? i = some vi → verts.get? j = some vj →
    (j ∈ vi.neighbors ↔ i ∈ vj.neighbors))

def uvsolverSInv (s : UVSolver) : Prop :=
  uvsolverInv s.verts ∧ ∀ p ∈ s.vhash, p.2 < s.verts.length

def foZero : FloatOps :=
  { len3 := fun _ => 0, sqrtF := fun _ => 0, acosF := fun _ => 0, piF := 0,
    angle3d := fun _ _ => 0 }

def cexEmptySolver : UVSolver :=
  { verts := [], vhash := [], fhash := [], tris := [], cons := []
    totarea2d := 0, totarea3d := 0, strength := 1, luvs := [] }

def cexDegenFace : SFace :=
  { fid := 0
    l0 := { lid := 0, uv := (0, 0), co := ⟨0, 0, 0⟩, eSeam := false }
    l1 := { lid := 1, uv := (0, 0), co := ⟨1, 0, 0⟩, eSeam := false }
    l2 := { lid := 2, uv := (1, 1), co := ⟨0, 1, 0⟩, eSeam := false } }

def cexTriFace : SFace :=
  { fid := 1
    l0 := { lid := 0, uv := (0, 0), co := ⟨0, 0, 0⟩, eSeam := false }
    l1 := { lid := 1, uv := (1, 0), co := ⟨1, 0, 0⟩, eSeam := false }
    l2 := { lid := 2, uv := (0, 1), co := ⟨0, 1, 0⟩, eSeam := false } }

def cexSeamFace : SFace :=
  { fid := 2
    l0 := { lid := 0, uv := (0, 0), co := ⟨0, 0, 0⟩, eSeam := true }
    l1 := { lid := 1, uv := (1, 0), co := ⟨1, 0, 0⟩, eSeam := false }
    l2 := { lid := 2, uv := (0, 1), co := ⟨0, 1, 0⟩, eSeam := false } }

def cexAngleCon : UVSmoothCon :=
  { ctype := CON_ANGLES, k := 1 / 2, vs := [0, 0, 0], tri := none, param0 := 0 }

def cexConSolver : UVSolver :=
  { verts := [svDefault], vhash := [], fhash := [], tris := [], cons := [cexAngleCon]
    totarea2d := 0, totarea3d := 0, strength := 1, luvs := [] }

def cexNegSolver : UVSolver :=
  { verts := [], vhash := [], fhash := [], tris := [], cons := []
    totarea2d := 0, totarea3d := 0, strength := -1, luvs := [] }

theorem sum_map_mul_const (l : List ℕ) (f : ℕ → ℚ) (c : ℚ) :
    (l.map fun i => f i * c).sum = (l.map f).sum * c := by
  induction l with
  | nil => simp
  | cons a t ih => simp [ih, add_mul]

/-- C1, counterexample: at the concrete planar valence-3 vertex `cexMesh`
both cotangent-query variants return per-edge weights summing to 5, far
beyond any floating-point tolerance around 1.0. -/
theorem cotangents_sum_counterexample :
    (SCULPT_faces_get_cotangents lenZ cexMesh 0).sum = 5 ∧
    (SCULPT_dyntopo_get_cotangents lenZ cexDiskVert).sum = 5 ∧ (5 : ℚ) ≠ 1 := by
  refine ⟨?_, ?_, by norm_num⟩ <;>
    norm_num [SCULPT_faces_get_cotangents, SCULPT_dyntopo_get_cotangents, facesTotArea,
      dyntopoTotArea, facesWedgeArea, dyntopoWedgeArea, facesRawW, dyntopoRawW, cexMesh,
      cexDiskVert, tri_voronoi_area, area_tri_v3, angleGtHalfPi, cotangent_tri_weight_v3,
      lenZ, subV, crossV, dotV, fltEpsilon, medge_other_vert, v3zero, List.range_succ]

/-- C1, amended: every per-edge weight returned by the two cotangent-query
variants is the raw cotangent sum divided by 2 times the total mixed
Voronoi area, so the weights sum to (total raw weight) / (2 x total area)
rather than to 1.0. -/
theorem cotangents_normalized_by_twice_total_area (len3 : Vec3 → ℚ)
    (m : FacesMesh) (vi : ℕ) (v : BMDiskVert) :
    SCULPT_faces_get_cotangents len3 m vi =
      (List.range (m.vemap.getD vi []).length).map
        (fun i => facesRawW len3 m vi i / (facesTotArea len3 m vi * 2)) ∧
    (SCULPT_faces_get_cotangents len3 m vi).sum =
      ((List.range (m.vemap.getD vi []).length).map (facesRawW len3 m vi)).sum /
        (facesTotArea len3 m vi * 2) ∧
    SCULPT_dyntopo_get_cotangents len3 v =
      (List.range v.nbrs.length).map
        (fun i => dyntopoRawW len3 v i / (dyntopoTotArea len3 v * 2)) ∧
    (SCULPT_dyntopo_get_cotangents len3 v).sum =
      ((List.range v.nbrs.length).map (dyntopoRawW len3 v)).sum /
        (dyntopoTotArea len3 v * 2) := by
  refine ⟨?_, ?_, ?_, ?_⟩ <;>
    simp [SCULPT_faces_get_cotangents, SCULPT_dyntopo_get_cotangents, sum_map_mul_const,
      div_eq_mul_inv, mul_inv, mul_comm, mul_assoc, mul_left_comm]

/-- C4: the per-wedge mixed Voronoi area equals half the naive triangle
area when the angle at `p` is obtuse, a quarter of it when the angle at `q`
or at `r` is obtuse, and otherwise the standard Voronoi formula
`(1/8)(|pr|^2 cot(angle at q) + |pq|^2 cot(angle at r))`. -/
theorem tri_voronoi_area_cases (len3 : Vec3 → ℚ) (p q r : Vec3) :
    tri_voronoi_area len3 p q r =
      if angleGtHalfPi p q r then specNaiveArea len3 p q r / 2
      else if angleGtHalfPi q p r || angleGtHalfPi r p q then
        specNaiveArea len3 p q r / 4
      else specVoronoiFormula len3 p q r := by
  simp [tri_voronoi_area, specNaiveArea, specVoronoiFormula, specCotAngleAt]

/-- C2: when the sculpt session has no boundary-rep mesh and the modifier
check reports the multires conflict flag, the toggle invoke returns the
error path (`OPERATOR_INTERFACE`) with the object unchanged: no
boundary-rep mesh is allocated (`ss->bm` stays `NULL`) and the mesh stays
in the Static state, with no partial state change. -/
theorem toggle_invoke_multires_blocks (ob : ToggleObject)
    (h1 : ob.bm = none)
    (h2 : (SCULPT_dynamic_topology_check ob).errorMultires = true) :
    sculpt_dynamic_topology_toggle_invoke ob = (OpStatus.interface, ob) := by
  cases hbm : ob.bm with
  | none => simp [sculpt_dynamic_topology_toggle_invoke, hbm, h2]
  | some u => rw [h1] at hbm; exact absurd hbm (by simp)

/-- Witness for the multires guard: the concrete object with one enabled
multires modifier satisfies both hypotheses, and the toggle invoke leaves
it untouched in the Static state. -/
theorem toggle_invoke_multires_blocks_witness :
    cexMultiresObject.bm = none ∧
    (SCULPT_dynamic_topology_check cexMultiresObject).errorMultires = true ∧
    sculpt_dynamic_topology_toggle_invoke cexMultiresObject =
      (OpStatus.interface, cexMultiresObject) :=
  ⟨rfl, by decide, toggle_invoke_multires_blocks cexMultiresObject rfl (by decide)⟩

/-- C3: the disk-sort check returns true and installs the re-sorted disk
cycle exactly when the dirty flag is set on entry, always leaves the dirty
flag clear, performs no sort when the flag is clear, and an immediately
repeated call returns false and changes nothing (idempotence). -/
theorem check_disk_sort_dirty_flag_idempotent (sortDisk : List ℕ → List ℕ)
    (v : DiskSortVert) :
    (SCULPT_dyntopo_check_disk_sort sortDisk v).1 = v.flags.needDiskSort ∧
    (SCULPT_dyntopo_check_disk_sort sortDisk v).2.disk =
      (if v.flags.needDiskSort then sortDisk v.disk else v.disk) ∧
    (SCULPT_dyntopo_check_disk_sort sortDisk v).2.flags.needDiskSort = false ∧
    (v.flags.needDiskSort = false → SCULPT_dyntopo_check_disk_sort sortDisk v = (false, v)) ∧
    SCULPT_dyntopo_check_disk_sort sortDisk (SCULPT_dyntopo_check_disk_sort sortDisk v).2 =
      (false, (SCULPT_dyntopo_check_disk_sort sortDisk v).2) := by
  by_cases h : v.flags.needDiskSort <;>
    simp [SCULPT_dyntopo_check_disk_sort, h]

/-- Witness for the disk-sort check: evaluated on a concrete dirty vertex
with the reversing sort function, discharging the implication at a
concrete input. -/
theorem check_disk_sort_dirty_flag_idempotent_witness :
    (SCULPT_dyntopo_check_disk_sort List.reverse
        ⟨⟨false, false⟩, [5, 7]⟩ = (false, ⟨⟨false, false⟩, [5, 7]⟩)) :=
  (check_disk_sort_dirty_flag_idempotent List.reverse ⟨⟨false, false⟩, [5, 7]⟩).2.2.2.1 rfl

theorem insertLayerOrdered_length (x : CDLayer) (l : List CDLayer) :
    (insertLayerOrdered x l).length = l.length + 1 := by
  induction l with
  | nil => rfl
  | cons y ys ih =>
    by_cases h : y.ltype ≤ x.ltype <;> simp [insertLayerOrdered, h, ih]

theorem recomputeOffsetsAux_length (tsize : ℕ → ℕ) (a : ℕ) (l : List CDLayer) :
    (recomputeOffsetsAux tsize a l).length = l.length := by
  induction l generalizing a with
  | nil => rfl
  | cons y ys ih => simp [recomputeOffsetsAux, ih]

theorem setTempList_length (n : ℕ) (l : List CDLayer) :
    (setTempList n l).length = l.length := by
  induction l generalizing n with
  | nil => cases n <;> rfl
  | cons y ys ih => cases n <;> simp [setTempList, ih]

theorem any_insertLayerOrdered (x : CDLayer) (l : List CDLayer) (p : CDLayer → Bool) :
    (insertLayerOrdered x l).any p = (p x || l.any p) := by
  induction l with
  | nil => simp [insertLayerOrdered]
  | cons y ys ih =>
    by_cases h : y.ltype ≤ x.ltype <;>
      simp [insertLayerOrdered, h, ih, Bool.or_left_comm]

theorem any_recomputeOffsetsAux (tsize : ℕ → ℕ) (p : CDLayer → Bool)
    (hp : ∀ (l : CDLayer) (a : ℕ), p { l with offset := a } = p l) :
    ∀ (a : ℕ) (l : List CDLayer), (recomputeOffsetsAux tsize a l).any p = l.any p := by
  intro a l
  induction l generalizing a with
  | nil => rfl
  | cons y ys ih => simp [recomputeOffsetsAux, hp, ih]

theorem any_setTempList (p : CDLayer → Bool)
    (hp : ∀ l : CDLayer, p { l with temporary := true } = p l) :
    ∀ (n : ℕ) (l : List CDLayer), (setTempList n l).any p = l.any p := by
  intro n l
  induction l generalizing n with
  | nil => cases n <;> rfl
  | cons y ys ih => cases n <;> simp [setTempList, hp, ih]

theorem named_index_nonneg_iff (d : CustomDataM) (t nm : ℕ) :
    0 ≤ CustomData_get_named_layer_index d t nm ↔
      d.layers.any (cdLayerMatches t nm) = true := by
  unfold CustomData_get_named_layer_index
  have hs := @List.findIdx?_isSome _ d.layers (cdLayerMatches t nm)
  cases h : d.layers.findIdx? (cdLayerMatches t nm) with
  | none =>
    rw [h] at hs; simp at hs
    simp
    exact hs
  | some i =>
    rw [h] at hs; simp at hs
    simp [hs]

theorem cdLayerMatches_imp_type (t nm : ℕ) :
    ∀ x : CDLayer, cdLayerMatches t nm x → x.ltype == t := by
  intro x hx
  unfold cdLayerMatches at hx
  exact (Bool.and_eq_true_iff.mp hx).1

theorem get_templayer_nonneg (ss : TempLayerSS) (t nm : ℕ)
    (h : 0 ≤ CustomData_get_named_layer_index ss.vdata t nm) :
    0 ≤ SCULPT_dyntopo_get_templayer ss t nm := by
  cases hf : ss.vdata.layers.findIdx? (cdLayerMatches t nm) with
  | none =>
    unfold CustomData_get_named_layer_index at h
    rw [hf] at h; simp at h
  | some i =>
    obtain ⟨j, hji, hfj⟩ :=
      List.findIdx?_eq_some_le_of_findIdx?_eq_some
        (fun x _ hx => cdLayerMatches_imp_type t nm x hx) hf
    have hnn : ¬ ((i : ℤ) < 0) := by omega
    have htn : ((i : ℤ) - (j : ℤ)).toNat = i - j := by omega
    have hadd : j + (i - j) = i := by omega
    rcases List.findIdx?_eq_some_iff_getElem.mp hf with ⟨hlen, hp, hmin⟩
    simp only [SCULPT_dyntopo_get_templayer, CustomData_get_named_layer_index,
      CustomData_get_n_offset, CustomData_get_layer_index, hf, hfj, hnn, if_false,
      htn, hadd]
    simp [List.get?_eq_getElem?, List.getElem?_eq_getElem hlen]

theorem layerReqPresent_cdAddLayer (tsize : ℕ → ℕ) (d : CustomDataM)
    (t : ℕ) (nm : Option ℕ) (r : BMCustomLayerReq)
    (h : layerReqPresent d r = true) :
    layerReqPresent (cdAddLayer tsize d t nm) r = true := by
  unfold layerReqPresent at h ⊢
  cases hr : r.rname with
  | some x =>
    rw [hr] at h
    simp only [decide_eq_true_eq] at h ⊢
    rw [named_index_nonneg_iff] at h ⊢
    unfold cdAddLayer recomputeOffsets
    simp only
    rw [any_recomputeOffsetsAux tsize _ (by intro l a; simp [cdLayerMatches])]
    rw [any_insertLayerOrdered]
    simp [h]
  | none =>
    rw [hr] at h
    unfold CustomData_has_layer at h ⊢
    unfold cdAddLayer recomputeOffsets
    simp only
    rw [any_recomputeOffsetsAux tsize _ (by intro l a; simp)]
    rw [any_insertLayerOrdered]
    simp only at h
    simp at h ⊢
    exact Or.inr h

theorem layers_ensure_all_present (tsize : ℕ → ℕ) (d : CustomDataM)
    (reqs : List BMCustomLayerReq) (h : reqs.all (layerReqPresent d) = true) :
    BM_data_layers_ensure tsize d reqs = d := by
  induction reqs with
  | nil => rfl
  | cons r rs ih =>
    simp only [List.all_cons, Bool.and_eq_true] at h
    unfold BM_data_layers_ensure at ih ⊢
    simp only [List.foldl_cons, h.1, if_true]
    exact ih h.2

theorem cdAddLayer_named_present (tsize : ℕ → ℕ) (d : CustomDataM) (t nm : ℕ) :
    0 ≤ CustomData_get_named_layer_index (cdAddLayer tsize d t (some nm)) t nm := by
  rw [named_index_nonneg_iff]
  unfold cdAddLayer recomputeOffsets
  simp only
  rw [any_recomputeOffsetsAux tsize _ (by intro l a; simp [cdLayerMatches])]
  rw [any_insertLayerOrdered]
  simp [cdLayerMatches]

theorem named_present_setTempList (d : List CDLayer) (n t nm : ℕ)
    (h : d.any (cdLayerMatches t nm) = true) :
    (setTempList n d).any (cdLayerMatches t nm) = true := by
  rw [any_setTempList _ (by intro l; simp [cdLayerMatches])]
  exact h

theorem cdAddLayer_length (tsize : ℕ → ℕ) (d : CustomDataM) (t : ℕ) (nm : Option ℕ) :
    (cdAddLayer tsize d t nm).layers.length = d.layers.length + 1 := by
  unfold cdAddLayer recomputeOffsets
  simp only
  rw [recomputeOffsetsAux_length, insertLayerOrdered_length]

theorem cdSetTemporaryAt_length (d : CustomDataM) (i : ℤ) :
    (cdSetTemporaryAt d i).layers.length = d.layers.length := by
  unfold cdSetTemporaryAt
  split
  · rfl
  · simp only
    rw [setTempList_length]

theorem any_cdSetTemporaryAt (d : CustomDataM) (i : ℤ) (t nm : ℕ)
    (h : d.layers.any (cdLayerMatches t nm) = true) :
    (cdSetTemporaryAt d i).layers.any (cdLayerMatches t nm) = true := by
  unfold cdSetTemporaryAt
  split
  · exact h
  · simp only
    exact named_present_setTempList _ _ _ _ h

theorem all_present_cdAddLayer (tsize : ℕ → ℕ) (d : CustomDataM) (t : ℕ)
    (nm : Option ℕ) (reqs : List BMCustomLayerReq)
    (h : reqs.all (layerReqPresent d) = true) :
    reqs.all (layerReqPresent (cdAddLayer tsize d t nm)) = true := by
  simp only [List.all_eq_true] at h ⊢
  intro r hr
  exact layerReqPresent_cdAddLayer tsize d t nm r (h r hr)

theorem node_layers_add_vdata (tsize : ℕ → ℕ) (ss : TempLayerSS)
    (h : nodeVLayerReqs.all (layerReqPresent ss.vdata) = true) :
    (SCULPT_dyntopo_node_layers_add tsize ss).vdata =
      cdSetTemporaryAt ss.vdata
        (CustomData_get_named_layer_index ss.vdata CD_PROP_INT32
          dyntopop_node_idx_layer_id) := by
  unfold SCULPT_dyntopo_node_layers_add
  simp only [layers_ensure_all_present tsize ss.vdata nodeVLayerReqs h]

theorem node_layers_add_pdata (tsize : ℕ → ℕ) (ss : TempLayerSS)
    (h : nodeFLayerReqs.all (layerReqPresent ss.pdata) = true) :
    (SCULPT_dyntopo_node_layers_add tsize ss).pdata =
      cdSetTemporaryAt ss.pdata
        (CustomData_get_named_layer_index ss.pdata CD_PROP_INT32
          dyntopop_node_idx_layer_id) := by
  unfold SCULPT_dyntopo_node_layers_add
  simp only [layers_ensure_all_present tsize ss.pdata nodeFLayerReqs h]

theorem ensure_templayer_present_noop (tsize : ℕ → ℕ) (ss : TempLayerSS) (t nm : ℕ)
    (h : 0 ≤ CustomData_get_named_layer_index ss.vdata t nm) :
    SCULPT_dyntopo_ensure_templayer tsize ss t nm = ss := by
  unfold SCULPT_dyntopo_ensure_templayer
  rw [if_neg (by omega)]

/-- C5: with the standard node layers in place (the steady state of a
dynamic-topology session) and the requested named and typed layer absent,
the first ensure call adds exactly one vertex custom-data layer and no face
layer, the second call changes nothing at all, and the offset lookup
returns identical valid (non-negative) offsets after each of the two
calls. -/
theorem ensure_templayer_idempotent (tsize : ℕ → ℕ) (ss : TempLayerSS) (t nm : ℕ)
    (hstd : stdNodeLayersPresent ss = true)
    (habs : CustomData_get_named_layer_index ss.vdata t nm < 0) :
    (SCULPT_dyntopo_ensure_templayer tsize ss t nm).vdata.layers.length
        = ss.vdata.layers.length + 1 ∧
    (SCULPT_dyntopo_ensure_templayer tsize ss t nm).pdata.layers.length
        = ss.pdata.layers.length ∧
    SCULPT_dyntopo_ensure_templayer tsize
        (SCULPT_dyntopo_ensure_templayer tsize ss t nm) t nm
      = SCULPT_dyntopo_ensure_templayer tsize ss t nm ∧
    0 ≤ SCULPT_dyntopo_get_templayer (SCULPT_dyntopo_ensure_templayer tsize ss t nm) t nm ∧
    SCULPT_dyntopo_get_templayer
        (SCULPT_dyntopo_ensure_templayer tsize
          (SCULPT_dyntopo_ensure_templayer tsize ss t nm) t nm) t nm
      = SCULPT_dyntopo_get_templayer (SCULPT_dyntopo_ensure_templayer tsize ss t nm) t nm := by
  unfold stdNodeLayersPresent at hstd
  rw [Bool.and_eq_true] at hstd
  obtain ⟨hv, hp⟩ := hstd
  have hvA := all_present_cdAddLayer tsize ss.vdata t (some nm) nodeVLayerReqs hv
  have hnodeV := node_layers_add_vdata tsize
    ⟨cdAddLayer tsize ss.vdata t (some nm), ss.pdata⟩ hvA
  have hnodeP := node_layers_add_pdata tsize
    ⟨cdAddLayer tsize ss.vdata t (some nm), ss.pdata⟩ hp
  have hss1 : SCULPT_dyntopo_ensure_templayer tsize ss t nm =
      { vdata := cdSetTemporaryAt
          (SCULPT_dyntopo_node_layers_add tsize
            ⟨cdAddLayer tsize ss.vdata t (some nm), ss.pdata⟩).vdata
          (CustomData_get_named_layer_index
            (SCULPT_dyntopo_node_layers_add tsize
              ⟨cdAddLayer tsize ss.vdata t (some nm), ss.pdata⟩).vdata t nm),
        pdata := (SCULPT_dyntopo_node_layers_add tsize
          ⟨cdAddLayer tsize ss.vdata t (some nm), ss.pdata⟩).pdata } := by
    unfold SCULPT_dyntopo_ensure_templayer SCULPT_dyntopo_node_layers_update_offsets
    rw [if_pos habs]
  have hpresA : (cdAddLayer tsize ss.vdata t (some nm)).layers.any
      (cdLayerMatches t nm) = true :=
    (named_index_nonneg_iff _ t nm).mp (cdAddLayer_named_present tsize ss.vdata t nm)
  have hpres1 : (SCULPT_dyntopo_ensure_templayer tsize ss t nm).vdata.layers.any
      (cdLayerMatches t nm) = true := by
    rw [hss1]
    apply any_cdSetTemporaryAt
    rw [hnodeV]
    apply any_cdSetTemporaryAt
    exact hpresA
  have hge1 : 0 ≤ CustomData_get_named_layer_index
      (SCULPT_dyntopo_ensure_templayer tsize ss t nm).vdata t nm :=
    (named_index_nonneg_iff _ t nm).mpr hpres1
  refine ⟨?_, ?_, ?_, ?_, ?_⟩
  · rw [hss1]
    simp only
    rw [cdSetTemporaryAt_length, hnodeV, cdSetTemporaryAt_length, cdAddLayer_length]
  · rw [hss1]
    simp only
    rw [hnodeP, cdSetTemporaryAt_length]
  · exact ensure_templayer_present_noop tsize _ t nm hge1
  · exact get_templayer_nonneg _ t nm hge1
  · rw [ensure_templayer_present_noop tsize _ t nm hge1]

/-- Witness for the temporary-layer idempotence: evaluated at the concrete
session `cexLayerSS` with unit layer sizes 4, requesting a `CD_PROP_FLOAT`
layer named 7, discharging both hypotheses there. -/
theorem ensure_templayer_idempotent_witness :
    stdNodeLayersPresent cexLayerSS = true ∧
    CustomData_get_named_layer_index cexLayerSS.vdata CD_PROP_FLOAT 7 < 0 ∧
    ((SCULPT_dyntopo_ensure_templayer (fun _ => 4) cexLayerSS CD_PROP_FLOAT 7).vdata.layers.length
        = cexLayerSS.vdata.layers.length + 1 ∧
      (SCULPT_dyntopo_ensure_templayer (fun _ => 4) cexLayerSS CD_PROP_FLOAT 7).pdata.layers.length
        = cexLayerSS.pdata.layers.length ∧
      SCULPT_dyntopo_ensure_templayer (fun _ => 4)
          (SCULPT_dyntopo_ensure_templayer (fun _ => 4) cexLayerSS CD_PROP_FLOAT 7)
          CD_PROP_FLOAT 7
        = SCULPT_dyntopo_ensure_templayer (fun _ => 4) cexLayerSS CD_PROP_FLOAT 7 ∧
      0 ≤ SCULPT_dyntopo_get_templayer
          (SCULPT_dyntopo_ensure_templayer (fun _ => 4) cexLayerSS CD_PROP_FLOAT 7)
          CD_PROP_FLOAT 7 ∧
      SCULPT_dyntopo_get_templayer
          (SCULPT_dyntopo_ensure_templayer (fun _ => 4)
            (SCULPT_dyntopo_ensure_templayer (fun _ => 4) cexLayerSS CD_PROP_FLOAT 7)
            CD_PROP_FLOAT 7) CD_PROP_FLOAT 7
        = SCULPT_dyntopo_get_templayer
            (SCULPT_dyntopo_ensure_templayer (fun _ => 4) cexLayerSS CD_PROP_FLOAT 7)
            CD_PROP_FLOAT 7) :=
  ⟨by decide, by decide,
    ensure_templayer_idempotent (fun _ => 4) cexLayerSS CD_PROP_FLOAT 7 (by decide) (by decide)⟩

theorem uvsolver_get_vert_cons (s : UVSolver) (l : SLoop) :
    (uvsolver_get_vert s l).1.cons = s.cons := by
  simp only [uvsolver_get_vert]
  split <;> rfl

theorem uvsolver_face_verts_cons (s : UVSolver) (f : SFace) :
    (uvsolver_face_verts s f).1.cons = s.cons := by
  unfold uvsolver_face_verts
  simp only [uvsolver_get_vert_cons]

/-- C6: when any of a face's three loops has its edge marked as a seam,
`uvsolver_ensure_face` registers the face and its vertices but generates no
constraints: the constraint list, the accumulated 2D/3D areas and the
triangle list are exactly those of the input solver state. -/
theorem ensure_face_seam_no_constraints (fo : FloatOps) (s : UVSolver) (f : SFace)
    (h : uvsolverFaceNocon f = true) :
    (uvsolver_ensure_face fo s f).1.cons = s.cons := by
  unfold uvsolver_ensure_face
  split
  · rfl
  · simp [uvsolverEnsureFaceNew, uvsolverFaceCons, h, uvsolver_face_verts_cons]

theorem get?_updVert_ne (j : ℕ) (f : UVSmoothVert → UVSmoothVert)
    (vs : List UVSmoothVert) (i : ℕ) (h : i ≠ j) :
    (updVert j f vs).get? i = vs.get? i := by
  induction vs generalizing i j with
  | nil => cases j <;> rfl
  | cons v rest ih =>
    cases j with
    | zero =>
      cases i with
      | zero => exact absurd rfl h
      | succ i2 => rfl
    | succ j2 =>
      cases i with
      | zero => rfl
      | succ i2 => simpa [updVert] using ih j2 i2 (by omega)

theorem get?_updVert_self (j : ℕ) (f : UVSmoothVert → UVSmoothVert)
    (vs : List UVSmoothVert) :
    (updVert j f vs).get? j = (vs.get? j).map f := by
  induction vs generalizing j with
  | nil => cases j <;> rfl
  | cons v rest ih =>
    cases j with
    | zero => rfl
    | succ j2 => simpa [updVert] using ih j2

theorem length_updVert (j : ℕ) (f : UVSmoothVert → UVSmoothVert)
    (vs : List UVSmoothVert) :
    (updVert j f vs).length = vs.length := by
  induction vs generalizing j with
  | nil => cases j <;> rfl
  | cons v rest ih =>
    cases j with
    | zero => rfl
    | succ j2 => simpa [updVert] using ih j2

theorem relaxVert_preserves_pinned (vs : List UVSmoothVert) (st : ℚ) (j i : ℕ)
    (v : UVSmoothVert) (hv : vs.get? i = some v) (hp : v.pinned = true) :
    (uvsolverRelaxVert vs st j).get? i = some v := by
  unfold uvsolverRelaxVert
  split
  · exact hv
  · rename_i osv sv1 heq
    split
    · exact hv
    · split
      · exact hv
      · rename_i hc _
        by_cases hij : i = j
        · subst hij
          rw [hv] at heq
          have hvs : v = sv1 := by injection heq
          rw [Bool.or_eq_true, not_or] at hc
          exact absurd (hvs ▸ hp) hc.2
        · rw [get?_updVert_ne _ _ _ _ hij]
          exact hv

theorem relaxPassAux_preserves_pinned (l : List ℕ) (vs : List UVSmoothVert)
    (st : ℚ) (i : ℕ) (v : UVSmoothVert) (hv : vs.get? i = some v)
    (hp : v.pinned = true) :
    (l.foldl (fun a j => uvsolverRelaxVert a st j) vs).get? i = some v := by
  induction l generalizing vs with
  | nil => exact hv
  | cons j rest ih =>
    exact ih _ (relaxVert_preserves_pinned vs st j i v hv hp)

/-- C7, amended: `uvsolver_simple_relax` leaves every pinned vertex's UV
coordinates unchanged (the relax step is skipped for pinned vertices);
boundary-but-unpinned vertices are still relaxed, only restricting the
neighbor average to boundary neighbors. -/
theorem simple_relax_pinned_unchanged (s : UVSolver) (strength : ℚ) (i : ℕ)
    (v : UVSmoothVert) (hv : s.verts.get? i = some v) (hp : v.pinned = true) :
    (uvsolver_simple_relax s strength).verts.get? i = some v := by
  unfold uvsolver_simple_relax uvsolverRelaxPass
  exact relaxPassAux_preserves_pinned _ _ _ _ _ hv hp

/-- C7, counterexample: in `cexRelaxSolver` vertex 0 is on a UV boundary
(but not pinned) with two neighbors, themselves boundary vertices; one
pass of `uvsolver_simple_relax` moves its UV from (0,0) to (1/2,1/2), so
boundary vertices are NOT excluded from relaxation. -/
theorem simple_relax_moves_boundary_counterexample :
    (getSV cexRelaxSolver.verts 0).boundary = true ∧
    (getSV cexRelaxSolver.verts 0).pinned = false ∧
    (getSV cexRelaxSolver.verts 0).uv = (0, 0) ∧
    (getSV (uvsolver_simple_relax cexRelaxSolver 1).verts 0).uv = (1/2, 1/2) := by
  refine ⟨rfl, rfl, rfl, ?_⟩
  have hne : (([1, 2] : List ℕ) = []) = False := by simp
  norm_num [uvsolver_simple_relax, uvsolverRelaxPass, uvsolverRelaxVert,
    uvsolverRelaxContrib, updVert, getSV, cexRelaxSolver, List.range_succ,
    List.filterMap_cons, List.filterMap_nil, hne]

theorem getSV_get? (verts : List UVSmoothVert) (i : ℕ) (h : i < verts.length) :
    verts.get? i = some (getSV verts i) := by
  unfold getSV
  simp [List.getD, List.get?_eq_getElem?, List.getElem?_eq_getElem h]

theorem lookup_mem {α β : Type} [BEq α] [LawfulBEq α] (l : List (α × β)) (k : α) (b : β)
    (h : l.lookup k = some b) : (k, b) ∈ l := by
  rw [List.lookup_eq_some_iff] at h
  obtain ⟨l1, l2, rfl, -⟩ := h
  simp

theorem inv_updVert_general (verts : List UVSmoothVert) (j : ℕ)
    (f : UVSmoothVert → UVSmoothVert)
    (hnb : ∀ v, (f v).neighbors = v.neighbors)
    (hls : ∀ v, v.ls.length ≤ MAXUVLOOPS → (f v).ls.length ≤ MAXUVLOOPS)
    (h : uvsolverInv verts) : uvsolverInv (updVert j f verts) := by
  obtain ⟨h1, h2⟩ := h
  have hn : ∀ k, ((updVert j f verts).get? k).map (fun v => v.neighbors) =
      (verts.get? k).map (fun v => v.neighbors) := by
    intro k
    by_cases hkj : k = j
    · subst hkj
      rw [get?_updVert_self]
      cases verts.get? k <;> simp [hnb]
    · rw [get?_updVert_ne _ _ _ _ hkj]
  constructor
  · intro v hv
    rw [length_updVert]
    obtain ⟨i, hi⟩ := List.mem_iff_get?.mp hv
    by_cases hij : i = j
    · subst hij
      rw [get?_updVert_self] at hi
      cases hvo : verts.get? i with
      | none => rw [hvo] at hi; simp at hi
      | some vo =>
        rw [hvo] at hi
        simp only [Option.map_some'] at hi
        obtain ⟨ho1, ho2, ho3, ho4⟩ := h1 vo (List.get?_mem hvo)
        obtain rfl : f vo = v := by injection hi
        refine ⟨hls vo ho1, ?_, ?_, ?_⟩ <;> rw [hnb] <;> assumption
    · rw [get?_updVert_ne _ _ _ _ hij] at hi
      exact h1 v (List.get?_mem hi)
  · intro i k vi vk hvi hvk
    have hni := hn i
    have hnk := hn k
    rw [hvi] at hni
    rw [hvk] at hnk
    cases hoi : verts.get? i with
    | none => rw [hoi] at hni; simp at hni
    | some voi =>
      cases hok : verts.get? k with
      | none => rw [hok] at hnk; simp at hnk
      | some vok =>
        rw [hoi] at hni
        rw [hok] at hnk
        simp only [Option.map_some', Option.some.injEq] at hni hnk
        rw [hni, hnk]
        exact h2 i k voi vok hoi hok

theorem get?_append_single (verts : List UVSmoothVert) (v0 : UVSmoothVert) (i : ℕ) :
    (verts ++ [v0]).get? i =
      if i < verts.length then verts.get? i
      else if i = verts.length then some v0 else none := by
  by_cases h1 : i < verts.length
  · rw [if_pos h1]
    simp [List.get?_eq_getElem?, List.getElem?_append_left h1]
  · rw [if_neg h1]
    by_cases h2 : i = verts.length
    · subst h2
      rw [if_pos rfl]
      simp [List.get?_eq_getElem?, List.getElem?_append_right (le_refl _)]
    · rw [if_neg h2]
      have : verts.length + 1 ≤ i := by omega
      simp [List.get?_eq_getElem?, List.getElem?_eq_none_iff]
      omega

theorem inv_append_fresh (verts : List UVSmoothVert) (v0 : UVSmoothVert)
    (hnb : v0.neighbors = []) (hls : v0.ls.length ≤ MAXUVLOOPS)
    (h : uvsolverInv verts) : uvsolverInv (verts ++ [v0]) := by
  obtain ⟨h1, h2⟩ := h
  constructor
  · intro v hv
    rcases List.mem_append.mp hv with hv | hv
    · obtain ⟨o1, o2, o3, o4⟩ := h1 v hv
      exact ⟨o1, o2, o3, fun m hm => by simp; have := o4 m hm; omega⟩
    · rw [List.mem_singleton] at hv
      subst hv
      exact ⟨hls, by rw [hnb]; simp [MAXUVNEIGHBORS], by rw [hnb]; exact List.nodup_nil,
        fun m hm => by rw [hnb] at hm; simp at hm⟩
  · intro i k vi vk hvi hvk
    rw [get?_append_single] at hvi hvk
    by_cases hi : i < verts.length <;> by_cases hk : k < verts.length
    · rw [if_pos hi] at hvi
      rw [if_pos hk] at hvk
      exact h2 i k vi vk hvi hvk
    · rw [if_pos hi] at hvi
      rw [if_neg hk] at hvk
      by_cases hke : k = verts.length
      · rw [if_pos hke] at hvk
        obtain rfl : v0 = vk := by injection hvk
        rw [hnb]
        simp only [List.not_mem_nil, iff_false]
        intro hmem
        have := (h1 vi (List.get?_mem hvi)).2.2.2 k hmem
        omega
      · rw [if_neg hke] at hvk
        exact absurd hvk (by simp)
    · rw [if_neg hi] at hvi
      rw [if_pos hk] at hvk
      by_cases hie : i = verts.length
      · rw [if_pos hie] at hvi
        obtain rfl : v0 = vi := by injection hvi
        rw [hnb]
        simp only [List.not_mem_nil, false_iff]
        intro hmem
        have := (h1 vk (List.get?_mem hvk)).2.2.2 i hmem
        omega
      · rw [if_neg hie] at hvi
        exact absurd hvi (by simp)
    · rw [if_neg hi] at hvi
      rw [if_neg hk] at hvk
      by_cases hie : i = verts.length <;> by_cases hke : k = verts.length
      · rw [if_pos hie] at hvi
        rw [if_pos hke] at hvk
        obtain rfl : v0 = vi := by injection hvi
        obtain rfl : v0 = vk := by injection hvk
        rw [hnb]
        simp
      · rw [if_neg hke] at hvk
        exact absurd hvk (by simp)
      · rw [if_neg hie] at hvi
        exact absurd hvi (by simp)
      · rw [if_neg hie] at hvi
        exact absurd hvi (by simp)

theorem recordLoop_neighbors (lid : ℕ) (v : UVSmoothVert) :
    (recordLoop lid v).neighbors = v.neighbors := by
  unfold recordLoop
  split <;> rfl

theorem recordLoop_ls_bound (lid : ℕ) (v : UVSmoothVert)
    (h : v.ls.length ≤ MAXUVLOOPS) : (recordLoop lid v).ls.length ≤ MAXUVLOOPS := by
  unfold recordLoop
  split
  · rename_i hlt
    simp
    omega
  · exact h

theorem get_vert_inv (s : UVSolver) (l : SLoop) (h : uvsolverSInv s) :
    uvsolverSInv (uvsolver_get_vert s l).1 ∧
    (uvsolver_get_vert s l).2 < (uvsolver_get_vert s l).1.verts.length ∧
    s.verts.length ≤ (uvsolver_get_vert s l).1.verts.length := by
  obtain ⟨hinv, hvh⟩ := h
  simp only [uvsolver_get_vert]
  cases hlk : s.vhash.lookup (uvsolver_calc_loop_key l.uv) with
  | some vi =>
    simp only
    have hvi : vi < s.verts.length :=
      hvh (uvsolver_calc_loop_key l.uv, vi) (lookup_mem _ _ _ hlk)
    refine ⟨⟨?_, ?_⟩, ?_, ?_⟩
    · exact inv_updVert_general _ _ _ (recordLoop_neighbors l.lid)
        (recordLoop_ls_bound l.lid) hinv
    · intro p hp
      rw [length_updVert]
      exact hvh p hp
    · rw [length_updVert]
      exact hvi
    · rw [length_updVert]
  | none =>
    simp only
    have hlen : (updVert s.verts.length (recordLoop l.lid)
        (s.verts ++ [{ uv := l.uv, co := l.co, pinned := false, boundary := false,
                       ls := [], neighbors := [] }])).length = s.verts.length + 1 := by
      rw [length_updVert, List.length_append]
      rfl
    refine ⟨⟨?_, ?_⟩, ?_, ?_⟩
    · apply inv_updVert_general _ _ _ (recordLoop_neighbors l.lid)
        (recordLoop_ls_bound l.lid)
      exact inv_append_fresh _ _ rfl (by simp [MAXUVLOOPS]) hinv
    · intro p hp
      rw [hlen]
      rcases List.mem_cons.mp hp with hp | hp
      · subst hp
        simp
      · have := hvh p hp
        omega
    · rw [hlen]
      omega
    · rw [hlen]
      omega

theorem get?_link_result (verts : List UVSmoothVert) (v1 v2 : ℕ) (h12 : v1 ≠ v2) (k : ℕ) :
    (updVert v2 (fun v => { v with neighbors := v.neighbors ++ [v1] })
      (updVert v1 (fun v => { v with neighbors := v.neighbors ++ [v2] }) verts)).get? k =
    if k = v1 then (verts.get? k).map (fun v => { v with neighbors := v.neighbors ++ [v2] })
    else if k = v2 then (verts.get? k).map (fun v => { v with neighbors := v.neighbors ++ [v1] })
    else verts.get? k := by
  by_cases hk1 : k = v1
  · subst hk1
    rw [get?_updVert_ne _ _ _ _ (by omega), get?_updVert_self, if_pos rfl]
  · by_cases hk2 : k = v2
    · subst hk2
      rw [get?_updVert_self, get?_updVert_ne _ _ _ _ (by omega), if_neg hk1, if_pos rfl]
    · rw [get?_updVert_ne _ _ _ _ hk2, get?_updVert_ne _ _ _ _ hk1, if_neg hk1, if_neg hk2]

theorem inv_linkNeighbors (verts : List UVSmoothVert) (v1 v2 : ℕ)
    (h : uvsolverInv verts) (h12 : v1 ≠ v2)
    (hv1 : v1 < verts.length) (hv2 : v2 < verts.length) :
    uvsolverInv (uvsolverLinkNeighbors verts v1 v2) := by
  obtain ⟨h1, h2⟩ := h
  unfold uvsolverLinkNeighbors
  split
  case isFalse => exact ⟨h1, h2⟩
  case isTrue hok =>
    rw [Bool.and_eq_true, Bool.and_eq_true] at hok
    obtain ⟨⟨hc1, hc2⟩, hc3⟩ := hok
    have hnm1 : v2 ∉ (getSV verts v1).neighbors := by
      simpa using hc1
    have hlt1 : (getSV verts v1).neighbors.length < MAXUVNEIGHBORS := by simpa using hc2
    have hlt2 : (getSV verts v2).neighbors.length < MAXUVNEIGHBORS := by simpa using hc3
    have hg1 : verts.get? v1 = some (getSV verts v1) := getSV_get? _ _ hv1
    have hg2 : verts.get? v2 = some (getSV verts v2) := getSV_get? _ _ hv2
    have hnm2 : v1 ∉ (getSV verts v2).neighbors := by
      intro hmem
      exact hnm1 ((h2 v2 v1 _ _ hg2 hg1).mp hmem)
    have hlen : (updVert v2 (fun v => { v with neighbors := v.neighbors ++ [v1] })
        (updVert v1 (fun v => { v with neighbors := v.neighbors ++ [v2] }) verts)).length
        = verts.length := by
      rw [length_updVert, length_updVert]
    constructor
    · intro v hv
      rw [hlen]
      obtain ⟨k, hk⟩ := List.mem_iff_get?.mp hv
      rw [get?_link_result verts v1 v2 h12 k] at hk
      by_cases hk1 : k = v1
      · rw [if_pos hk1, hk1, hg1] at hk
        simp only [Option.map_some'] at hk
        obtain rfl := (Option.some.injEq _ _).mp hk.symm
        obtain ⟨o1, o2, o3, o4⟩ := h1 _ (List.get?_mem hg1)
        refine ⟨o1, ?_, ?_, ?_⟩
        · simp only [List.length_append, List.length_singleton]
          omega
        · simp only [List.nodup_append, List.nodup_singleton, List.disjoint_singleton]
          exact ⟨o3, trivial, hnm1⟩
        · intro m hm
          rcases List.mem_append.mp hm with hm | hm
          · exact o4 m hm
          · rw [List.mem_singleton] at hm
            omega
      · by_cases hk2 : k = v2
        · rw [if_neg hk1, if_pos hk2, hk2, hg2] at hk
          simp only [Option.map_some'] at hk
          obtain rfl := (Option.some.injEq _ _).mp hk.symm
          obtain ⟨o1, o2, o3, o4⟩ := h1 _ (List.get?_mem hg2)
          refine ⟨o1, ?_, ?_, ?_⟩
          · simp only [List.length_append, List.length_singleton]
            omega
          · simp only [List.nodup_append, List.nodup_singleton, List.disjoint_singleton]
            exact ⟨o3, trivial, hnm2⟩
          · intro m hm
            rcases List.mem_append.mp hm with hm | hm
            · exact o4 m hm
            · rw [List.mem_singleton] at hm
              omega
        · rw [if_neg hk1, if_neg hk2] at hk
          exact h1 v (List.get?_mem hk)
    · intro i k vi vk hvi hvk
      rw [get?_link_result verts v1 v2 h12 i] at hvi
      rw [get?_link_result verts v1 v2 h12 k] at hvk
      by_cases hi1 : i = v1 <;> by_cases hi2 : i = v2 <;>
        by_cases hk1 : k = v1 <;> by_cases hk2 : k = v2
      all_goals try omega
      · -- i = v1, k = v1
        rw [if_pos hi1, hi1, hg1] at hvi
        rw [if_pos hk1, hk1, hg1] at hvk
        simp only [Option.map_some', Option.some.injEq] at hvi hvk
        subst hvi
        subst hvk
        have hik : i = k := by omega
        rw [hik]
      · -- i = v1, k = v2
        rw [if_pos hi1, hi1, hg1] at hvi
        rw [if_neg (by omega), if_pos hk2, hk2, hg2] at hvk
        simp only [Option.map_some', Option.some.injEq] at hvi hvk
        subst hvi
        subst hvk
        simp [hi1, hk2]
      · -- i = v1, k other
        rw [if_pos hi1, hi1, hg1] at hvi
        rw [if_neg hk1, if_neg hk2] at hvk
        simp only [Option.map_some', Option.some.injEq] at hvi
        subst hvi
        have hh := h2 v1 k _ _ hg1 hvk
        simp only [List.mem_append, List.mem_singleton, hi1]
        rw [← hh]
        constructor
        · rintro (hm | hm)
          · exact hm
          · exact absurd hm hk2
        · intro hm
          exact Or.inl hm
      · -- i = v2, k = v1
        rw [if_neg (by omega), if_pos hi2, hi2, hg2] at hvi
        rw [if_pos hk1, hk1, hg1] at hvk
        simp only [Option.map_some', Option.some.injEq] at hvi hvk
        subst hvi
        subst hvk
        simp [hi2, hk1]
      · -- i = v2, k = v2
        rw [if_neg (by omega), if_pos hi2, hi2, hg2] at hvi
        rw [if_neg (by omega), if_pos hk2, hk2, hg2] at hvk
        simp only [Option.map_some', Option.some.injEq] at hvi hvk
        subst hvi
        subst hvk
        have hik : i = k := by omega
        rw [hik]
      · -- i = v2, k other
        rw [if_neg (by omega), if_pos hi2, hi2, hg2] at hvi
        rw [if_neg hk1, if_neg hk2] at hvk
        simp only [Option.map_some', Option.some.injEq] at hvi
        subst hvi
        have hh := h2 v2 k _ _ hg2 hvk
        simp only [List.mem_append, List.mem_singleton, hi2]
        rw [← hh]
        constructor
        · rintro (hm | hm)
          · exact hm
          · exact absurd hm hk1
        · intro hm
          exact Or.inl hm
      · -- i other, k = v1
        rw [if_neg hi1, if_neg hi2] at hvi
        rw [if_pos hk1, hk1, hg1] at hvk
        simp only [Option.map_some', Option.some.injEq] at hvk
        subst hvk
        have hh := h2 i v1 _ _ hvi hg1
        simp only [List.mem_append, List.mem_singleton, hk1]
        rw [hh]
        constructor
        · intro hm
          exact Or.inl hm
        · rintro (hm | hm)
          · exact hm
          · exact absurd hm hi2
      · -- i other, k = v2
        rw [if_neg hi1, if_neg hi2] at hvi
        rw [if_neg (by omega), if_pos hk2, hk2, hg2] at hvk
        simp only [Option.map_some', Option.some.injEq] at hvk
        subst hvk
        have hh := h2 i v2 _ _ hvi hg2
        simp only [List.mem_append, List.mem_singleton, hk2]
        rw [hh]
        constructor
        · intro hm
          exact Or.inl hm
        · rintro (hm | hm)
          · exact hm
          · exact absurd hm hi1
      · -- both other
        rw [if_neg hi1, if_neg hi2] at hvi
        rw [if_neg hk1, if_neg hk2] at hvk
        exact h2 i k _ _ hvi hvk

theorem length_linkNeighbors (verts : List UVSmoothVert) (v1 v2 : ℕ) :
    (uvsolverLinkNeighbors verts v1 v2).length = verts.length := by
  unfold uvsolverLinkNeighbors
  split
  · rw [length_updVert, length_updVert]
  · rfl

theorem inv_nudged (verts : List UVSmoothVert) (abc : ℕ × ℕ × ℕ)
    (h : uvsolverInv verts) : uvsolverInv (uvsolverFaceVertsNudged verts abc) := by
  unfold uvsolverFaceVertsNudged
  split
  · unfold uvsolverNudge
    refine inv_updVert_general _ _ _ ?_ ?_
      (inv_updVert_general _ _ _ ?_ ?_ (inv_updVert_general _ _ _ ?_ ?_ h)) <;>
      first
        | exact fun v => rfl
        | exact fun v hv => hv
  · exact h

theorem length_nudged (verts : List UVSmoothVert) (abc : ℕ × ℕ × ℕ) :
    (uvsolverFaceVertsNudged verts abc).length = verts.length := by
  unfold uvsolverFaceVertsNudged
  split
  · unfold uvsolverNudge
    rw [length_updVert, length_updVert, length_updVert]
  · rfl

theorem inv_link3 (verts : List UVSmoothVert) (abc : ℕ × ℕ × ℕ)
    (h : uvsolverInv verts)
    (hab : abc.1 ≠ abc.2.1) (hbc : abc.2.1 ≠ abc.2.2) (hac : abc.1 ≠ abc.2.2)
    (ha : abc.1 < verts.length) (hb : abc.2.1 < verts.length)
    (hc : abc.2.2 < verts.length) :
    uvsolverInv (uvsolverLink3 verts abc) ∧
    (uvsolverLink3 verts abc).length = verts.length := by
  unfold uvsolverLink3
  have l1 := length_linkNeighbors verts abc.1 abc.2.1
  have i1 := inv_linkNeighbors verts abc.1 abc.2.1 h hab ha hb
  have l2 := length_linkNeighbors (uvsolverLinkNeighbors verts abc.1 abc.2.1) abc.2.1 abc.2.2
  have i2 := inv_linkNeighbors _ abc.2.1 abc.2.2 i1 hbc (by omega) (by omega)
  have l3 := length_linkNeighbors
    (uvsolverLinkNeighbors (uvsolverLinkNeighbors verts abc.1 abc.2.1) abc.2.1 abc.2.2)
    abc.2.2 abc.1
  have i3 := inv_linkNeighbors _ abc.2.2 abc.1 i2 (fun hx => hac hx.symm)
    (by omega) (by omega)
  exact ⟨i3, by omega⟩

theorem face_verts_inv (s : UVSolver) (f : SFace) (h : uvsolverSInv s) :
    uvsolverSInv (uvsolver_face_verts s f).1 ∧
    (uvsolver_face_verts s f).2.1 < (uvsolver_face_verts s f).1.verts.length ∧
    (uvsolver_face_verts s f).2.2.1 < (uvsolver_face_verts s f).1.verts.length ∧
    (uvsolver_face_verts s f).2.2.2 < (uvsolver_face_verts s f).1.verts.length := by
  obtain ⟨ha1, ha2, ha3⟩ := get_vert_inv s f.l0 h
  obtain ⟨hb1, hb2, hb3⟩ := get_vert_inv (uvsolver_get_vert s f.l0).1 f.l1 ha1
  obtain ⟨hc1, hc2, hc3⟩ := get_vert_inv
    (uvsolver_get_vert (uvsolver_get_vert s f.l0).1 f.l1).1 f.l2 hb1
  have hmb : (uvsolver_get_vert (uvsolver_get_vert s f.l0).1 f.l1).1.verts.length ≤
      (uvsolver_get_vert (uvsolver_get_vert (uvsolver_get_vert s f.l0).1 f.l1).1 f.l2).1.verts.length := hc3
  unfold uvsolver_face_verts
  dsimp only
  exact ⟨hc1, by omega, by omega, hc2⟩

theorem lookup_setLoopUV_ne (luvs : List (ℕ × (ℚ × ℚ))) (lp lid : ℕ) (uv : ℚ × ℚ)
    (h : lp ≠ lid) : (setLoopUV luvs lp uv).lookup lid = luvs.lookup lid := by
  induction luvs with
  | nil => rfl
  | cons e rest ih =>
    obtain ⟨k, w⟩ := e
    unfold setLoopUV at ih ⊢
    simp only [List.map_cons]
    by_cases hk : (k, w).1 = lp
    · simp only [if_pos hk]
      simp only [List.lookup]
      by_cases hl : lid = k
      · simp only at hk
        omega
      · have hb : (lid == k) = false := by simpa using hl
        simp [hb, ih]
    · simp only [if_neg hk]
      simp only [List.lookup]
      by_cases hl : lid = k
      · have hb : (lid == k) = true := by simpa using hl
        simp [hb]
      · have hb : (lid == k) = false := by simpa using hl
        simp [hb, ih]

theorem lookup_foldl_setLoopUV (ls : List ℕ) (uv : ℚ × ℚ)
    (luvs : List (ℕ × (ℚ × ℚ))) (lid : ℕ) (h : lid ∉ ls) :
    (ls.foldl (fun m lp => setLoopUV m lp uv) luvs).lookup lid = luvs.lookup lid := by
  induction ls generalizing luvs with
  | nil => rfl
  | cons lp rest ih =>
    rw [List.foldl_cons]
    rw [List.mem_cons, not_or] at h
    rw [ih _ h.2, lookup_setLoopUV_ne _ _ _ _ (fun he => h.1 he.symm)]

theorem lookup_updateUVs_not_recorded (verts : List UVSmoothVert)
    (luvs : List (ℕ × (ℚ × ℚ))) (lid : ℕ)
    (h : ∀ v ∈ verts, lid ∉ v.ls) :
    (uvsolverUpdateUVs verts luvs).lookup lid = luvs.lookup lid := by
  unfold uvsolverUpdateUVs
  induction verts generalizing luvs with
  | nil => rfl
  | cons v rest ih =>
    have h1 : lid ∉ v.ls := h v (List.mem_cons_self v rest)
    have h2 : ∀ w ∈ rest, lid ∉ w.ls := fun w hw => h w (List.mem_cons_of_mem v hw)
    rw [List.foldl_cons]
    rw [ih _ h2]
    exact lookup_foldl_setLoopUV _ _ _ _ h1

/-- C10, amended: provided the face's three corners resolve to three
pairwise-distinct solver vertices, `uvsolver_ensure_face` preserves the
solver invariant: every vertex keeps at most 32 loops and at most 32
distinct in-range neighbors (duplicates and overflow are skipped by the
guarded link step), neighbor links stay symmetric, and the UV write-back
`uvsolverUpdateUVs` only touches loops recorded in some vertex. -/
theorem ensure_face_caps (fo : FloatOps) (s : UVSolver) (f : SFace)
    (hinv : uvsolverSInv s)
    (hab : (uvsolver_face_verts s f).2.1 ≠ (uvsolver_face_verts s f).2.2.1)
    (hbc : (uvsolver_face_verts s f).2.2.1 ≠ (uvsolver_face_verts s f).2.2.2)
    (hac : (uvsolver_face_verts s f).2.1 ≠ (uvsolver_face_verts s f).2.2.2) :
    uvsolverSInv (uvsolver_ensure_face fo s f).1 ∧
    (∀ (verts : List UVSmoothVert) (luvs : List (ℕ × (ℚ × ℚ))) (lid : ℕ),
      (∀ v ∈ verts, lid ∉ v.ls) →
      (uvsolverUpdateUVs verts luvs).lookup lid = luvs.lookup lid) := by
  refine ⟨?_, fun verts luvs lid h => lookup_updateUVs_not_recorded verts luvs lid h⟩
  unfold uvsolver_ensure_face
  split
  · exact hinv
  · obtain ⟨hs1, hA, hB, hC⟩ := face_verts_inv s f hinv
    have hnud := inv_nudged (uvsolver_face_verts s f).1.verts
      (uvsolver_face_verts s f).2 hs1.1
    have hnlen := length_nudged (uvsolver_face_verts s f).1.verts
      (uvsolver_face_verts s f).2
    obtain ⟨hl3, hl3len⟩ := inv_link3 _ (uvsolver_face_verts s f).2 hnud
      hab hbc hac (by omega) (by omega) (by omega)
    unfold uvsolverEnsureFaceNew
    constructor
    · exact hl3
    · intro p hp
      simp only
      rw [hl3len, hnlen]
      exact hs1.2 p hp

/-- C9: when the solver strength is negative, `uvsolver_solve_step` only
runs the simple relaxation pass with the absolute value of the strength
and returns a zero error without evaluating any constraint. -/
theorem solve_step_negative_strength (fo : FloatOps) (s : UVSolver)
    (h : s.strength < 0) :
    uvsolver_solve_step fo s = (uvsolver_simple_relax s (fabsQ s.strength), 0) := by
  unfold uvsolver_solve_step
  rw [if_pos h]

/-- C8: a single constraint step `uvsolver_con_step` returns a zero
correction (state unchanged) whenever the squared residual `r2` is at most
the evaluation limit 1e-5, or the total squared gradient `totgs` is at
most 1e-5, or the total weight `totw` is zero; otherwise it applies the
weighted Gauss-Seidel correction. -/
theorem solve_step_residual_guards (fo : FloatOps) (s : UVSolver) (con : UVSmoothCon) :
    (fabsQ (uvsolver_eval_constraint fo s con) < evalLimit →
      uvsolver_con_step fo s con = (s, 0)) ∧
    (uvsolverConTotg fo s con < evalLimit →
      (uvsolver_con_step fo s con).1 = s) ∧
    ((uvsolver_con_step fo s con).1 ≠ s →
      evalLimit ≤ fabsQ (uvsolver_eval_constraint fo s con) ∧
      evalLimit ≤ uvsolverConTotg fo s con) := by
  have hA : fabsQ (uvsolver_eval_constraint fo s con) < evalLimit →
      uvsolver_con_step fo s con = (s, 0) := by
    intro h
    simp only [uvsolver_con_step]
    rw [if_pos h]
  have hB : uvsolverConTotg fo s con < evalLimit →
      (uvsolver_con_step fo s con).1 = s := by
    intro h2
    by_cases h1 : fabsQ (uvsolver_eval_constraint fo s con) < evalLimit
    · rw [hA h1]
    · unfold uvsolverConTotg at h2
      simp only [uvsolver_con_step]
      rw [if_neg h1, if_pos h2]
  refine ⟨hA, hB, ?_⟩
  intro hneq
  constructor
  · by_contra hx
    exact hneq (by rw [hA (lt_of_not_le hx)])
  · by_contra hx
    exact hneq (hB (lt_of_not_le hx))

/-- C10, counterexample: feeding `uvsolver_ensure_face` a degenerate face
whose first two corners share the same UV key merges them into one solver
vertex and appends that vertex to its own neighbor list twice, producing
the duplicate-laden neighbor list [0, 0, 1]; the claimed no-duplicate
invariant is violated even below the 32-entry caps. -/
theorem uvsolver_duplicate_neighbor_counterexample :
    (getSV (uvsolver_ensure_face foZero cexEmptySolver cexDegenFace).1.verts 0).neighbors
      = [0, 0, 1] ∧
    ¬ ([0, 0, 1] : List ℕ).Nodup := by
  constructor
  · have e1 : (((268451840 : ℤ)) == ((0 : ℤ))) = false := by decide
    have e2 : (((0 : ℤ)) == ((0 : ℤ))) = true := by decide
    norm_num [uvsolver_ensure_face, uvsolverEnsureFaceNew, uvsolver_face_verts,
      uvsolver_get_vert, uvsolver_calc_loop_key, truncQ, recordLoop, updVert, getSV,
      uvsolverLink3, uvsolverLinkNeighbors, uvsolverFaceVertsNudged, uvsolverFaceArea2d,
      uvsolverNudge, area_tri_v2_db, area_tri_signed_v2_db, fabsQ, cexEmptySolver,
      cexDegenFace, foZero, List.lookup, MAXUVLOOPS, MAXUVNEIGHBORS, svDefault, e1, e2]
  · decide

theorem ensure_face_caps_witness :
    uvsolverSInv cexEmptySolver ∧
    (uvsolver_face_verts cexEmptySolver cexTriFace).2.1
      ≠ (uvsolver_face_verts cexEmptySolver cexTriFace).2.2.1 ∧
    (uvsolver_face_verts cexEmptySolver cexTriFace).2.2.1
      ≠ (uvsolver_face_verts cexEmptySolver cexTriFace).2.2.2 ∧
    (uvsolver_face_verts cexEmptySolver cexTriFace).2.1
      ≠ (uvsolver_face_verts cexEmptySolver cexTriFace).2.2.2 ∧
    (uvsolverSInv (uvsolver_ensure_face foZero cexEmptySolver cexTriFace).1 ∧
      (∀ (verts : List UVSmoothVert) (luvs : List (ℕ × (ℚ × ℚ))) (lid : ℕ),
        (∀ v ∈ verts, lid ∉ v.ls) →
        (uvsolverUpdateUVs verts luvs).lookup lid = luvs.lookup lid)) := by
  have hsinv : uvsolverSInv cexEmptySolver :=
    ⟨⟨fun v hv => absurd hv (List.not_mem_nil v),
      fun i j vi vj hvi hvj => by simp [cexEmptySolver] at hvi⟩,
     fun p hp => absurd hp (List.not_mem_nil p)⟩
  have hd1 : (uvsolver_face_verts cexEmptySolver cexTriFace).2.1
      ≠ (uvsolver_face_verts cexEmptySolver cexTriFace).2.2.1 := by
    have e1 : (((16384 : ℤ)) == ((0 : ℤ))) = false := by decide
    have e2 : (((268435456 : ℤ)) == ((16384 : ℤ))) = false := by decide
    have e3 : (((268435456 : ℤ)) == ((0 : ℤ))) = false := by decide
    norm_num [uvsolver_face_verts, uvsolver_get_vert, uvsolver_calc_loop_key, truncQ,
      recordLoop, updVert, cexEmptySolver, cexTriFace, List.lookup, e1, e2, e3]
  have hd2 : (uvsolver_face_verts cexEmptySolver cexTriFace).2.2.1
      ≠ (uvsolver_face_verts cexEmptySolver cexTriFace).2.2.2 := by
    have e1 : (((16384 : ℤ)) == ((0 : ℤ))) = false := by decide
    have e2 : (((268435456 : ℤ)) == ((16384 : ℤ))) = false := by decide
    have e3 : (((268435456 : ℤ)) == ((0 : ℤ))) = false := by decide
    norm_num [uvsolver_face_verts, uvsolver_get_vert, uvsolver_calc_loop_key, truncQ,
      recordLoop, updVert, cexEmptySolver, cexTriFace, List.lookup, e1, e2, e3]
  have hd3 : (uvsolver_face_verts cexEmptySolver cexTriFace).2.1
      ≠ (uvsolver_face_verts cexEmptySolver cexTriFace).2.2.2 := by
    have e1 : (((16384 : ℤ)) == ((0 : ℤ))) = false := by decide
    have e2 : (((268435456 : ℤ)) == ((16384 : ℤ))) = false := by decide
    have e3 : (((268435456 : ℤ)) == ((0 : ℤ))) = false := by decide
    norm_num [uvsolver_face_verts, uvsolver_get_vert, uvsolver_calc_loop_key, truncQ,
      recordLoop, updVert, cexEmptySolver, cexTriFace, List.lookup, e1, e2, e3]
  exact ⟨hsinv, hd1, hd2, hd3,
    ensure_face_caps foZero cexEmptySolver cexTriFace hsinv hd1 hd2 hd3⟩

theorem ensure_face_seam_no_constraints_witness :
    uvsolverFaceNocon cexSeamFace = true ∧
    (uvsolver_ensure_face foZero cexEmptySolver cexSeamFace).1.cons
      = cexEmptySolver.cons :=
  ⟨rfl, ensure_face_seam_no_constraints foZero cexEmptySolver cexSeamFace rfl⟩

theorem solve_step_residual_guards_witness :
    fabsQ (uvsolver_eval_constraint foZero cexConSolver cexAngleCon) < evalLimit ∧
    uvsolver_con_step foZero cexConSolver cexAngleCon = (cexConSolver, 0) := by
  have h : fabsQ (uvsolver_eval_constraint foZero cexConSolver cexAngleCon) < evalLimit := by
    norm_num [uvsolver_eval_constraint, cexConSolver, cexAngleCon, foZero, CON_ANGLES,
      normalize_v2_db, sub2, dot2, getSV, svDefault, fabsQ, evalLimit]
  exact ⟨h, (solve_step_residual_guards foZero cexConSolver cexAngleCon).1 h⟩

theorem solve_step_negative_strength_witness :
    cexNegSolver.strength < 0 ∧
    uvsolver_solve_step foZero cexNegSolver =
      (uvsolver_simple_relax cexNegSolver (fabsQ cexNegSolver.strength), 0) := by
  have h : cexNegSolver.strength < 0 := by norm_num [cexNegSolver]
  exact ⟨h, solve_step_negative_strength foZero cexNegSolver h⟩

theorem simple_relax_pinned_unchanged_witness :
    cexRelaxSolver.verts.get? 1 = some
      { uv := (1, 0), co := v3zero, pinned := true, boundary := true, ls := [], neighbors := [] } ∧
    (uvsolver_simple_relax cexRelaxSolver 1).verts.get? 1 = some
      { uv := (1, 0), co := v3zero, pinned := true, boundary := true, ls := [], neighbors := [] } :=
  ⟨rfl, simple_relax_pinned_unchanged cexRelaxSolver 1 1 _ rfl rfl⟩
